import Mathlib

/-
Verification development for the regulatory-text analysis core
(reg_gap): clause classification, definition extraction, ambiguity
detection, semantic clause diffing, enforcement modelling and
confidence bounds.

Modelling conventions:
* Python text positions are character indices; text is modelled as
  `List Char` (or `String` at API boundaries).
* Python floats are idealised as exact rationals (`ℚ`) in the fully
  rational modules, and as reals (`ℝ`) in the confidence-bounds module,
  where `math.sqrt` forces real arithmetic.
* Python regular expressions over the fixed literal pattern families are
  modelled by a small backtracking matcher (`RPat`/`mrun`) whose
  priority order (leftmost alternative first, greedy repetition) mirrors
  the `re` module on these patterns.
* A Python `assert`/raise is modelled by an `Option` result.
* Python dicts used only through `.get` are modelled as total functions.
-/

/-! ## Shared character/text utilities -/

/-- ASCII word character, mirroring `re`'s `\w` = `[a-zA-Z0-9_]`. -/
def isWordChar (c : Char) : Bool := c.isAlphanum || c = '_'

/-- Python slicing `t[a:b]` on character lists (clamping, `a ≤ b` intended). -/
def pySlice (t : List Char) (a b : ℕ) : List Char := (t.drop a).take (b - a)

/-- Lower-case a character list (Python `str.lower` on ASCII text). -/
def lowerChars (t : List Char) : List Char := t.map Char.toLower

/-- Substring containment test, mirroring Python `needle in hay`. -/
def containsSeq (needle : List Char) : List Char → Bool
  | [] => needle.isEmpty
  | c :: t => needle.isPrefixOf (c :: t) || containsSeq needle t

/-- Auxiliary word counter: `inW` records whether we are inside a word. -/
def wordCountAux : List Char → Bool → ℕ
  | [], _ => 0
  | c :: r, inW =>
      if c.isWhitespace then wordCountAux r false
      else (if inW then 0 else 1) + wordCountAux r true

/-- Number of whitespace-separated words, mirroring `len(text.split())`. -/
def wordCount (t : List Char) : ℕ := wordCountAux t false

/-! ## A small regex fragment

The fixed pattern families of the repository use only: literals,
one-or-more character classes (`\s+`, `[\w-]+`, `[^"]+`), optional
groups, alternation, concatenation and the word-boundary assertion
`\b`.  `mrun` returns the candidate match end positions in the `re`
module's backtracking priority order (first alternative first, greedy
repetition longest first); the actual match end is the head. -/

inductive RPat where
  | lit (s : List Char)
  | cls1 (p : Char → Bool)
  | opt (p : RPat)
  | alt2 (p q : RPat)
  | seq2 (p q : RPat)
  | wordB

/-- Candidate match end positions of pattern `p` at position `i` of `t`,
in backtracking priority order. -/
def mrun (t : List Char) : RPat → ℕ → List ℕ
  | .lit s, i => if s.isPrefixOf (t.drop i) then [i + s.length] else []
  | .cls1 p, i =>
      let r := ((t.drop i).takeWhile p).length
      (List.range r).map (fun j => i + r - j)
  | .opt p, i => mrun t p i ++ [i]
  | .alt2 p q, i => mrun t p i ++ mrun t q i
  | .seq2 p q, i => (mrun t p i).flatMap (fun e => mrun t q e)
  | .wordB, i =>
      let prevW := match (t.drop (i - 1)).head? with
        | some c => decide (0 < i) && isWordChar c
        | none => false
      let nextW := match (t.drop i).head? with
        | some c => isWordChar c
        | none => false
      if prevW != nextW then [i] else []

/-- `re.search` as a Boolean: does `p` match anywhere in `t`? -/
def searchB (p : RPat) (t : List Char) : Bool :=
  (List.range (t.length + 1)).any (fun i => !(mrun t p i).isEmpty)

/-- A combined pattern `'|'.join(patterns)` searched as a Boolean matches
iff some component pattern matches. -/
def anyPat (ps : List RPat) (t : List Char) : Bool := ps.any (searchB · t)

/-- `re.finditer`: non-overlapping `(start, end)` matches, scanning left
to right and resuming at each match end, with step fuel. -/
def finditerAux (t : List Char) (p : RPat) : ℕ → ℕ → List (ℕ × ℕ)
  | 0, _ => []
  | fuel + 1, i =>
      if t.length < i then []
      else
        match (mrun t p i).head? with
        | some e =>
            if i < e then (i, e) :: finditerAux t p fuel e
            else finditerAux t p fuel (i + 1)
        | none => finditerAux t p fuel (i + 1)

/-- All non-overlapping matches of `p` in `t` (`re.finditer`). -/
def finditerP (p : RPat) (t : List Char) : List (ℕ × ℕ) :=
  finditerAux t p (t.length + 1) 0

/-- Left-priority alternation of a nonempty pattern list. -/
def altOf : List RPat → RPat
  | [] => .lit []
  | p :: ps => ps.foldl .alt2 p

/-- Literal pattern from a string. -/
def L (s : String) : RPat := .lit s.toList

/-- `\b(?:...)\b` around an alternation, as in the clause pattern lists. -/
def bword (ps : List RPat) : RPat := .seq2 .wordB (.seq2 (altOf ps) .wordB)

/-- `\b k \b` for a literal keyword `k` (vague-standard lexicon scan). -/
def bword1 (k : List Char) : RPat := .seq2 .wordB (.seq2 (.lit k) .wordB)

/-- `\s+`. -/
def ws1 : RPat := .cls1 Char.isWhitespace

/-- Syntactic check that every successful match of a pattern consumes at
least one non-whitespace character: true for a literal containing a
non-whitespace character, for an alternation both of whose branches
qualify, and for a concatenation either of whose parts qualifies. -/
def patConsumesNonWs : RPat → Bool
  | .lit s => s.any (fun c => !c.isWhitespace)
  | .cls1 _ => false
  | .opt _ => false
  | .alt2 p q => patConsumesNonWs p && patConsumesNonWs q
  | .seq2 p q => patConsumesNonWs p || patConsumesNonWs q
  | .wordB => false

/-! ## Clause extractor (`reg_gap.parsing.clause_extractor`) -/

inductive ClauseType where
  | OBLIGATION
  | PROHIBITION
  | PERMISSION
  | CONDITION
  | DEFINITION
  | EXCEPTION
  | UNKNOWN
deriving DecidableEq

/-- `ClauseType.value` serialization strings. -/
def clauseTypeValue : ClauseType → String
  | .OBLIGATION => "obligation"
  | .PROHIBITION => "prohibition"
  | .PERMISSION => "permission"
  | .CONDITION => "condition"
  | .DEFINITION => "definition"
  | .EXCEPTION => "exception"
  | .UNKNOWN => "unknown"

structure RegulatoryClause where
  text : String
  clause_type : ClauseType
  section_id : Option String := none
  subject : Option String := none
  action : Option String := none
  object_ : Option String := none
  conditions : List String := []
  exceptions : List String := []
  confidence : ℚ := 1
  position : ℕ := 0
deriving DecidableEq

/-- `OBLIGATION_PATTERNS`. -/
def OBLIGATION_PATTERNS : List RPat :=
  [ bword [L "shall", L "must", L "will", L "is required to",
      L "are required to", L "has to", L "have to"],
    bword [L "is obligated", L "are obligated", L "is obliged",
      L "are obliged"],
    bword [L "it is mandatory", L "mandatory requirement"] ]

/-- `PROHIBITION_PATTERNS` (the last entry is
`\bno\s+[\w-]+(?:\s+[\w-]+)?\s+shall\b`). -/
def PROHIBITION_PATTERNS : List RPat :=
  [ bword [L "shall not", L "must not", L "may not", L "cannot",
      L "will not"],
    bword [L "is prohibited", L "are prohibited", L "is forbidden",
      L "are forbidden"],
    bword [L "is not permitted", L "are not permitted",
      L "is not allowed", L "are not allowed"],
    bword [L "no person shall", L "no entity shall", L "no one may"],
    .seq2 .wordB (.seq2 (L "no") (.seq2 ws1 (.seq2
      (.cls1 (fun c => isWordChar c || c = '-'))
      (.seq2 (.opt (.seq2 ws1 (.cls1 (fun c => isWordChar c || c = '-'))))
        (.seq2 ws1 (.seq2 (L "shall") .wordB)))))) ]

/-- `PERMISSION_PATTERNS`. -/
def PERMISSION_PATTERNS : List RPat :=
  [ bword [L "may", L "can", L "is permitted to", L "are permitted to"],
    bword [L "is allowed to", L "are allowed to", L "is authorized",
      L "are authorized"],
    bword [L "has the right to", L "have the right to"] ]

/-- `CONDITION_PATTERNS`. -/
def CONDITION_PATTERNS : List RPat :=
  [ bword [L "if", L "when", L "where", L "unless", L "provided that",
      L "subject to"],
    bword [L "in the event", L "in case of", L "contingent upon"],
    bword [L "except when", L "except where", L "except if"] ]

/-- `EXCEPTION_PATTERNS`. -/
def EXCEPTION_PATTERNS : List RPat :=
  [ bword [L "except", L "excluding", L "other than", L "notwithstanding"],
    bword [.seq2 (L "this ") (.seq2
      (altOf [L "section", L "rule", L "regulation"])
      (L " does not apply"))],
    bword [L "exemption", L "exempt from"] ]

/-- Definition-sentence patterns of `_is_definition` (case-sensitive). -/
def DEFINITION_SENTENCE_PATTERNS : List RPat :=
  [ .seq2 (L "\"") (.seq2 (.cls1 (· ≠ '"')) (L "\" means")),
    .seq2 (L "\"") (.seq2 (.cls1 (· ≠ '"')) (L "\" shall mean")),
    .seq2 (altOf [L "the term", L "The term"])
      (.seq2 (L " \"") (.seq2 (.cls1 (· ≠ '"')) (L "\""))),
    .seq2 (L "\"") (.seq2 (.cls1 (· ≠ '"')) (L "\" is defined as")) ]

/-- `self._prohibition_re.search(sentence)` (compiled with IGNORECASE). -/
def matchesProhibition (s : String) : Bool :=
  anyPat PROHIBITION_PATTERNS (lowerChars s.toList)

/-- `self._obligation_re.search(sentence)` (compiled with IGNORECASE). -/
def matchesObligation (s : String) : Bool :=
  anyPat OBLIGATION_PATTERNS (lowerChars s.toList)

/-- `self._permission_re.search(sentence)` (compiled with IGNORECASE). -/
def matchesPermission (s : String) : Bool :=
  anyPat PERMISSION_PATTERNS (lowerChars s.toList)

/-- `self._condition_re.search(sentence)` (compiled with IGNORECASE). -/
def matchesCondition (s : String) : Bool :=
  anyPat CONDITION_PATTERNS (lowerChars s.toList)

/-- `self._exception_re.search(sentence)` (compiled with IGNORECASE). -/
def matchesException (s : String) : Bool :=
  anyPat EXCEPTION_PATTERNS (lowerChars s.toList)

/-- `ClauseExtractor._is_definition` (case-sensitive search). -/
def isDefinitionSentence (s : String) : Bool :=
  anyPat DEFINITION_SENTENCE_PATTERNS s.toList

/-- `ClauseExtractor._classify_clause`: the if-chain checking pattern
families in source order. -/
def classifyClause (s : String) : ClauseType :=
  if matchesProhibition s then .PROHIBITION
  else if matchesObligation s then .OBLIGATION
  else if matchesPermission s then .PERMISSION
  else if matchesException s then .EXCEPTION
  else if matchesCondition s then .CONDITION
  else if isDefinitionSentence s then .DEFINITION
  else .UNKNOWN

/-- Modelled from the spec: classification as a first-match-wins scan of
the precedence list PROHIBITION, OBLIGATION, PERMISSION, EXCEPTION,
CONDITION, DEFINITION, with UNKNOWN as the fallback. -/
def specClassifyClause (s : String) : ClauseType :=
  match ([(ClauseType.PROHIBITION, matchesProhibition s),
          (ClauseType.OBLIGATION, matchesObligation s),
          (ClauseType.PERMISSION, matchesPermission s),
          (ClauseType.EXCEPTION, matchesException s),
          (ClauseType.CONDITION, matchesCondition s),
          (ClauseType.DEFINITION, isDefinitionSentence s)].find? (·.2)) with
  | some tb => tb.1
  | none => .UNKNOWN

/-! ## Ambiguity detector (`reg_gap.comparison.ambiguity`) -/

inductive AmbiguityType where
  | VAGUE_STANDARD
  | UNDEFINED_TERM
  | CIRCULAR_DEFINITION
  | CONFLICTING_CLAUSES
  | SCOPE_UNCLEAR
  | TIMING_UNCLEAR
  | THRESHOLD_UNCLEAR
  | REFERENCE_AMBIGUITY
deriving DecidableEq

structure AmbiguityInstance where
  text : String
  ambiguity_type : AmbiguityType
  trigger_phrase : String
  position : ℕ
  severity : ℚ := 0.5
  confidence : ℚ := 0.5
  context : String := ""
  interpretation_range : List String := []
deriving DecidableEq

/-- `VAGUE_STANDARDS`: keyword, description, severity (dict in insertion
order). -/
def VAGUE_STANDARDS : List (String × String × ℚ) :=
  [ ("reasonable", "Reasonable under the circumstances", 0.6),
    ("appropriate", "Appropriate measures", 0.6),
    ("adequate", "Adequate safeguards", 0.6),
    ("sufficient", "Sufficient controls", 0.5),
    ("material", "Material change/impact", 0.7),
    ("significant", "Significant risk", 0.6),
    ("substantial", "Substantial compliance", 0.6),
    ("promptly", "Promptly notify", 0.7),
    ("timely", "Timely manner", 0.6),
    ("reasonable time", "Within a reasonable time", 0.7),
    ("as soon as practicable", "As soon as practicable", 0.6),
    ("to the extent practicable", "To the extent practicable", 0.6),
    ("good faith", "Good faith effort", 0.5),
    ("best efforts", "Best efforts", 0.5),
    ("commercially reasonable", "Commercially reasonable efforts", 0.5),
    ("duly", "Duly authorized", 0.4),
    ("properly", "Properly maintained", 0.5),
    ("as needed", "As needed basis", 0.6),
    ("as appropriate", "As appropriate", 0.6),
    ("in the ordinary course", "In the ordinary course of business", 0.5) ]

/-- Concatenation of a nonempty pattern list. -/
def seqOf : List RPat → RPat
  | [] => .lit []
  | p :: ps => ps.foldl .seq2 p

/-- `SCOPE_UNCLEAR_PATTERNS`. -/
def SCOPE_UNCLEAR_PATTERNS : List (RPat × String × ℚ) :=
  [ (seqOf [.wordB, altOf [L "may", L "might"], ws1,
      altOf [L "include", L "apply"]], "Scope may include", 0.6),
    (seqOf [.wordB, L "including", ws1, L "but", ws1, L "not", ws1,
      L "limited", ws1, L "to", .wordB], "Non-exhaustive list", 0.5),
    (seqOf [.wordB, L "such", ws1, L "as", .wordB], "Exemplary list", 0.4),
    (seqOf [.wordB, L "other", ws1,
      altOf [L "similar", L "related", L "applicable"], .wordB],
      "Undefined other items", 0.6),
    (seqOf [.wordB, L "and", ws1, L "similar", .wordB],
      "Similar items undefined", 0.5),
    (seqOf [.wordB, L "or", ws1, L "otherwise", .wordB],
      "Catch-all provision", 0.6),
    (seqOf [.wordB, L "to", ws1, L "the", ws1, L "extent", ws1,
      altOf [L "applicable", L "relevant"], .wordB],
      "Applicability unclear", 0.6) ]

/-- `TIMING_UNCLEAR_PATTERNS`. -/
def TIMING_UNCLEAR_PATTERNS : List (RPat × String × ℚ) :=
  [ (seqOf [.wordB, L "promptly", .wordB],
      "Promptly - timing unspecified", 0.7),
    (seqOf [.wordB, L "without", ws1, .opt (seqOf [L "undue", ws1]),
      L "delay", .wordB], "Without delay - no timeframe", 0.6),
    (seqOf [.wordB, L "as", ws1, L "soon", ws1, L "as", ws1,
      .opt (seqOf [L "reasonably", ws1]),
      altOf [L "practicable", L "possible"], .wordB],
      "ASAP - no deadline", 0.7),
    (seqOf [.wordB, L "in", ws1, L "a", ws1, L "timely", ws1,
      altOf [L "manner", L "fashion"], .wordB], "Timely - undefined", 0.7),
    (seqOf [.wordB, L "periodically", .wordB],
      "Periodically - frequency unclear", 0.6),
    (seqOf [.wordB, L "from", ws1, L "time", ws1, L "to", ws1, L "time",
      .wordB], "From time to time - no schedule", 0.5),
    (seqOf [.wordB, L "regularly", .wordB],
      "Regularly - frequency unclear", 0.5) ]

/-- `THRESHOLD_UNCLEAR_PATTERNS`. -/
def THRESHOLD_UNCLEAR_PATTERNS : List (RPat × String × ℚ) :=
  [ (seqOf [.wordB, L "material", .opt (L "ly"), .wordB],
      "Material threshold undefined", 0.7),
    (seqOf [.wordB, L "significant", .opt (L "ly"), .wordB],
      "Significant threshold undefined", 0.6),
    (seqOf [.wordB, L "substantial", .opt (L "ly"), .wordB],
      "Substantial threshold undefined", 0.6),
    (seqOf [.wordB, L "de", ws1, L "minimis", .wordB],
      "De minimis threshold unclear", 0.6),
    (seqOf [.wordB, L "excessive", .wordB],
      "Excessive threshold undefined", 0.6),
    (seqOf [.wordB, L "unusual", .wordB],
      "Unusual threshold undefined", 0.5) ]

/-- The fixed interpretation range attached to vague-standard hits. -/
def INTERPRETATION_RANGE_DEFAULT : List String :=
  [ "Conservative: Most restrictive interpretation",
    "Moderate: Industry standard interpretation",
    "Liberal: Least restrictive interpretation" ]

/-- `AmbiguityDetector._detect_vague_standards`: scans `text_lower` for
`\b keyword \b`; the instance text is the match from the lowered text,
the context window comes from the original text. -/
def vagueInstances (t : List Char) : List AmbiguityInstance :=
  VAGUE_STANDARDS.flatMap (fun kds =>
    (finditerP (bword1 kds.1.toList) (lowerChars t)).map (fun se =>
      { text := String.mk (pySlice (lowerChars t) se.1 se.2)
        ambiguity_type := .VAGUE_STANDARD
        trigger_phrase := kds.2.1
        position := se.1
        severity := kds.2.2
        confidence := 0.8
        context := String.mk (pySlice t (se.1 - 50) (se.2 + 50))
        interpretation_range := INTERPRETATION_RANGE_DEFAULT }))

/-- `AmbiguityDetector._detect_pattern_ambiguity`: IGNORECASE patterns
are run over the lowered text; the instance text and context are sliced
from the original text. -/
def patternInstances (t : List Char) (pats : List (RPat × String × ℚ))
    (ty : AmbiguityType) : List AmbiguityInstance :=
  pats.flatMap (fun pds =>
    (finditerP pds.1 (lowerChars t)).map (fun se =>
      { text := String.mk (pySlice t se.1 se.2)
        ambiguity_type := ty
        trigger_phrase := pds.2.1
        position := se.1
        severity := pds.2.2
        confidence := 0.7
        context := String.mk (pySlice t (se.1 - 50) (se.2 + 50)) }))

/-- Matches of `"([^"]{2,50})"` (`re.finditer` semantics): scan left to
right; at an opening quote, the candidate content runs to the next
quote; it matches iff its length is between 2 and 50, and scanning
resumes after the match (or at the closing quote on failure). -/
def quotedScanAux : ℕ → ℕ → List Char → List (ℕ × List Char)
  | 0, _, _ => []
  | _ + 1, _, [] => []
  | fuel + 1, pos, c :: rest =>
      if c = '"' then
        let pre := rest.takeWhile (· ≠ '"')
        match rest.drop pre.length with
        | [] => []
        | _ :: after =>
            if 2 ≤ pre.length ∧ pre.length ≤ 50 then
              (pos, pre) :: quotedScanAux fuel (pos + pre.length + 2) after
            else quotedScanAux fuel (pos + 1 + pre.length) (rest.drop pre.length)
      else quotedScanAux fuel (pos + 1) rest

/-- All quoted-term matches `(start, term)` in `t`. -/
def quotedMatches (t : List Char) : List (ℕ × List Char) :=
  quotedScanAux (t.length + 1) 0 t

/-- Stopwords skipped by the undefined-term heuristic. -/
def SKIP_PHRASES : List String := ["and", "or", "the", "a", "an", "means", "shall"]

/-- `AmbiguityDetector._detect_undefined_terms`. -/
def undefinedTermInstances (definedTerms : List String) (t : List Char) :
    List AmbiguityInstance :=
  (quotedMatches t).filterMap (fun pm =>
    let term := pm.2
    let termLower := lowerChars term
    let endPos := pm.1 + term.length + 2
    let afterText := lowerChars (pySlice t endPos (endPos + 20))
    if (definedTerms.map (fun s => lowerChars s.toList)).contains termLower then
      none
    else if (SKIP_PHRASES.map (·.toList)).contains termLower then none
    else if containsSeq "means".toList afterText ||
        containsSeq "shall mean".toList afterText then none
    else some
      { text := String.mk term
        ambiguity_type := .UNDEFINED_TERM
        trigger_phrase := "Potentially undefined term: " ++ String.mk term
        position := pm.1
        severity := 0.5
        confidence := 0.5
        context := String.mk (pySlice t (pm.1 - 50) (endPos + 50)) })

structure AmbiguityDetectorConfig where
  defined_terms : List String := []
  severity_threshold : ℚ := 0

/-- The concatenated instance stream of `detect` before filtering, in
source order: vague standards, scope, timing, threshold, undefined
terms. -/
def allAmbiguityInstances (cfg : AmbiguityDetectorConfig) (t : List Char) :
    List AmbiguityInstance :=
  vagueInstances t ++
  patternInstances t SCOPE_UNCLEAR_PATTERNS .SCOPE_UNCLEAR ++
  patternInstances t TIMING_UNCLEAR_PATTERNS .TIMING_UNCLEAR ++
  patternInstances t THRESHOLD_UNCLEAR_PATTERNS .THRESHOLD_UNCLEAR ++
  undefinedTermInstances cfg.defined_terms t

/-- Severity filtering (`i.severity >= self.severity_threshold`). -/
def filteredInstances (cfg : AmbiguityDetectorConfig) (t : List Char) :
    List AmbiguityInstance :=
  (allAmbiguityInstances cfg t).filter
    (fun i => cfg.severity_threshold ≤ i.severity)

/-- Position-sorted surviving instances (`sorted(..., key=position)`;
`mergeSort` is stable like Python `sorted`). -/
def sortedInstances (cfg : AmbiguityDetectorConfig) (t : List Char) :
    List AmbiguityInstance :=
  (filteredInstances cfg t).mergeSort (fun a b => a.position ≤ b.position)

/-- The `instances_by_type` counting dict, modelled as its lookup
function (`.get(type, 0)`). -/
def instancesByType (l : List AmbiguityInstance) : AmbiguityType → ℕ :=
  fun ty => l.countP (fun i => i.ambiguity_type = ty)

/-- Count of instances with severity at least 0.7. -/
def highSeverityCount (l : List AmbiguityInstance) : ℕ :=
  l.countP (fun i => (0.7 : ℚ) ≤ i.severity)

/-- The ambiguity score formula of `detect`.  (Python would raise
`ZeroDivisionError` when the surviving-instance list is nonempty and the
word count is zero; that case is proved unreachable below, so total
rational division is a faithful model.) -/
def ambiguityScore (instances : List AmbiguityInstance) (t : List Char) : ℚ :=
  if instances = [] then 0
  else min 1 ((instances.length : ℚ) / ((wordCount t : ℚ) / 100))

def noAmbiguityMsg : String := "No significant ambiguity detected"

def legalReviewMsg : String :=
  "IMPORTANT: This analysis identifies potential ambiguity but does not provide legal advice. Consult qualified legal counsel for interpretation guidance."

def vagueStandardsMsg : String :=
  "Multiple vague standards detected. Consider adopting conservative interpretations and documenting compliance rationale."

def timingUnclearMsg : String :=
  "Timing requirements are ambiguous. Seek clarification from regulators or adopt most restrictive reasonable timeframes."

def thresholdUnclearMsg : String :=
  "Materiality/threshold definitions are unclear. Document your interpretation methodology and seek legal review."

def highPriorityMsg (hs : ℕ) : String :=
  "HIGH PRIORITY: " ++ toString hs ++
    " high-severity ambiguities detected. Prioritize legal review of these items."

/-- `AmbiguityDetector._generate_recommendations`. -/
def generateRecommendations (instances : List AmbiguityInstance)
    (byType : AmbiguityType → ℕ) : List String :=
  if instances = [] then [noAmbiguityMsg]
  else
    let r1 := [legalReviewMsg]
    let r2 := if 3 < byType .VAGUE_STANDARD then r1 ++ [vagueStandardsMsg] else r1
    let r3 := if 2 < byType .TIMING_UNCLEAR then r2 ++ [timingUnclearMsg] else r2
    let r4 := if 2 < byType .THRESHOLD_UNCLEAR then r3 ++ [thresholdUnclearMsg] else r3
    let hs := instances.countP (fun i => (0.7 : ℚ) ≤ i.severity)
    if 5 < hs then r4 ++ [highPriorityMsg hs] else r4

structure AmbiguityReport where
  document_id : String
  jurisdiction : Option String
  total_instances : ℕ
  instances_by_type : AmbiguityType → ℕ
  high_severity_count : ℕ
  ambiguity_score : ℚ
  instances : List AmbiguityInstance
  recommendations : List String

/-- `AmbiguityDetector.detect`. -/
def detect (cfg : AmbiguityDetectorConfig) (text : String)
    (documentId : String) (jurisdiction : Option String) : AmbiguityReport :=
  let t := text.toList
  let instances := sortedInstances cfg t
  { document_id := documentId
    jurisdiction := jurisdiction
    total_instances := instances.length
    instances_by_type := instancesByType instances
    high_severity_count := highSeverityCount instances
    ambiguity_score := ambiguityScore instances t
    instances := instances
    recommendations := generateRecommendations instances (instancesByType instances) }

/-! ## Semantic diff (`reg_gap.comparison.semantic_diff`)

The similarity function is a parameter, mirroring the pluggable
`embedding_model` (the default keyword/Jaccard path is
`keywordSimilarity` below); float similarity scores are idealised as
rationals. -/

inductive DifferenceType where
  | STRICTER
  | LOOSER
  | AMBIGUOUS
  | EQUIVALENT
  | CONFLICTING
  | NOVEL
deriving DecidableEq

structure ClauseDifference where
  clause_a : RegulatoryClause
  clause_b : Option RegulatoryClause
  difference_type : DifferenceType
  similarity_score : ℚ
  analysis : String
  confidence : ℚ := 0.5
  risk_factors : List String := []
  requires_legal_review : Bool := false
deriving DecidableEq

/-- `STRICTER_INDICATORS` (a Python set; only membership counts are
used, so the literal order is irrelevant). -/
def STRICTER_INDICATORS : List String :=
  [ "must", "shall", "required", "mandatory", "always", "never",
    "prohibited", "forbidden", "all", "each", "every", "immediately",
    "within 24 hours", "no exceptions", "under no circumstances" ]

/-- `LOOSER_INDICATORS`. -/
def LOOSER_INDICATORS : List String :=
  [ "may", "can", "optional", "reasonable", "generally", "typically",
    "usually", "unless", "except", "subject to", "at discretion",
    "good faith", "best efforts", "commercially reasonable" ]

/-- `AMBIGUITY_INDICATORS`. -/
def AMBIGUITY_INDICATORS : List String :=
  [ "appropriate", "adequate", "sufficient", "reasonable", "material",
    "significant", "substantial", "promptly", "timely", "as needed",
    "as applicable", "where appropriate", "to the extent" ]

/-- `sum(1 for ind in indicators if ind in text)`. -/
def countIndicators (inds : List String) (lowText : List Char) : ℕ :=
  inds.countP (fun ind => containsSeq ind.toList lowText)

/-- `SemanticDiff._analyze_difference`. -/
def analyzeDifference (a b : RegulatoryClause) (similarity : ℚ) :
    ClauseDifference :=
  let ta := lowerChars a.text.toList
  let tb := lowerChars b.text.toList
  let strictA := countIndicators STRICTER_INDICATORS ta
  let strictB := countIndicators STRICTER_INDICATORS tb
  let looseA := countIndicators LOOSER_INDICATORS ta
  let looseB := countIndicators LOOSER_INDICATORS tb
  let ambigA := countIndicators AMBIGUITY_INDICATORS ta
  let ambigB := countIndicators AMBIGUITY_INDICATORS tb
  let r : DifferenceType × String × ℚ × List String :=
    if (0.95 : ℚ) < similarity then
      (.EQUIVALENT, "Clauses are semantically equivalent", 0.9, [])
    else if strictB + 1 < strictA ∨ looseA + 1 < looseB then
      (.STRICTER, "First clause appears stricter than second", 0.7,
        ["stricter_language_detected"])
    else if strictA + 1 < strictB ∨ looseB + 1 < looseA then
      (.LOOSER, "First clause appears looser than second", 0.7,
        ["looser_language_detected"])
    else if 2 < ambigA ∨ 2 < ambigB then
      (.AMBIGUOUS, "Significant ambiguity in clause language", 0.5,
        ["ambiguous_language"])
    else if a.clause_type ≠ b.clause_type then
      (.CONFLICTING,
        "Clause type mismatch: " ++ clauseTypeValue a.clause_type ++
          " vs " ++ clauseTypeValue b.clause_type, 0.8,
        ["clause_type_conflict"])
    else
      (.AMBIGUOUS, "Difference is unclear - requires human review", 0.4,
        ["unclear_difference"])
  { clause_a := a
    clause_b := some b
    difference_type := r.1
    similarity_score := similarity
    analysis := r.2.1
    confidence := r.2.2.1
    risk_factors := r.2.2.2
    requires_legal_review :=
      r.1 = .AMBIGUOUS ∨ r.1 = .CONFLICTING ∨ r.2.2.1 < (0.6 : ℚ) ∨
        r.2.2.2 ≠ ([] : List String) }

/-- The `NOVEL` difference record (used for unmatched clauses on either
side; the unmatched clause always lands in the `clause_a` field). -/
def novelDiff (c : RegulatoryClause) (jFrom jTo : String) : ClauseDifference :=
  { clause_a := c
    clause_b := none
    difference_type := .NOVEL
    similarity_score := 0
    analysis := "Clause in " ++ jFrom ++ " has no equivalent in " ++ jTo
    confidence := 0.8
    risk_factors := []
    requires_legal_review := true }

/-- One step of the inner scan of `compare_clauses`: the running best
match (`best_match`, `best_match_idx`, `best_similarity`) is replaced by
candidate `ib` when its index is unmatched and its similarity `s`
satisfies `s > best_similarity and s >= threshold`. -/
def bestStep (sim : String → String → ℚ) (th : ℚ) (aText : String)
    (matched : List ℕ) (st : Option (ℕ × RegulatoryClause) × ℚ)
    (ib : ℕ × RegulatoryClause) : Option (ℕ × RegulatoryClause) × ℚ :=
  if matched.contains ib.1 then st
  else if st.2 < sim aText ib.2.text ∧ th ≤ sim aText ib.2.text then
    (some ib, sim aText ib.2.text)
  else st

/-- The inner scan of `compare_clauses` over the enumerated B clauses,
with `best_similarity` starting at `0.0` and no initial best match. -/
def bestMatchFold (sim : String → String → ℚ) (th : ℚ) (aText : String)
    (bs : List RegulatoryClause) (matched : List ℕ) :
    Option (ℕ × RegulatoryClause) × ℚ :=
  bs.enum.foldl (bestStep sim th aText matched) (none, 0)

/-- The A-side loop of `compare_clauses`: returns the differences for
the A clauses (in order) together with the final matched-index set
(modelled as the list of matched B indices in match order). -/
def compareAux (sim : String → String → ℚ) (th : ℚ) (ja jb : String) :
    List RegulatoryClause → List RegulatoryClause → List ℕ →
    List ClauseDifference × List ℕ
  | [], _, matched => ([], matched)
  | ca :: cas, bs, matched =>
      match (bestMatchFold sim th ca.text bs matched).1 with
      | some ib =>
          let rest := compareAux sim th ja jb cas bs (matched ++ [ib.1])
          (analyzeDifference ca ib.2 (bestMatchFold sim th ca.text bs matched).2
              :: rest.1,
            rest.2)
      | none =>
          let rest := compareAux sim th ja jb cas bs matched
          (novelDiff ca ja jb :: rest.1, rest.2)

/-- `SemanticDiff.compare_clauses`. -/
def compareClauses (sim : String → String → ℚ) (th : ℚ)
    (cas bs : List RegulatoryClause) (ja jb : String) :
    List ClauseDifference :=
  let r := compareAux sim th ja jb cas bs []
  r.1 ++ ((bs.enum.filter (fun ib => !r.2.contains ib.1)).map
    (fun ib => novelDiff ib.2 jb ja))

/-- Python `text.split()` (whitespace split, empty tokens dropped). -/
def pySplitWords (s : String) : List String :=
  (s.split (fun c => c.isWhitespace)).filter (· ≠ "")

/-- `set(text.lower().split())`. -/
def wordSet (s : String) : Finset String := (pySplitWords s.toLower).toFinset

/-- `SemanticDiff._keyword_similarity` (Jaccard similarity of word
sets; the default similarity when no embedding model is configured). -/
def keywordSimilarity (a b : String) : ℚ :=
  let wa := wordSet a
  let wb := wordSet b
  if wa = ∅ ∨ wb = ∅ then 0
  else ((wa ∩ wb).card : ℚ) / ((wa ∪ wb).card : ℚ)

/-! ## Definition extractor (`reg_gap.parsing.definitions`)

The nine definition regexes (and the cross-reference regexes) are
abstracted as inputs: each pattern contributes its `finditer` match
stream (term group, definition group, start position) paired with the
pattern's confidence, and the cross-reference extractor is a function
parameter.  The dedup/validate/sort logic is modelled from the source. -/

structure Definition where
  term : String
  definition_text : String
  source_document : Option String := none
  section_id : Option String := none
  jurisdiction : Option String := none
  position : ℕ := 0
  confidence : ℚ := 1
  cross_references : List String := []
deriving DecidableEq

/-- One regex match of a definition pattern: `match.group(1)`,
`match.group(2)`, `match.start()`. -/
structure DefMatch where
  term : String
  body : String
  start : ℕ
deriving DecidableEq

/-- `DefinitionExtractor._is_valid_definition`. -/
def isValidDefinition (minLen maxLen : ℕ) (term defText : String) : Bool :=
  if term.length < 2 ∨ 100 < term.length then false
  else if defText.length < minLen then false
  else if maxLen < defText.length then false
  else if term.length < 2 * (term.toList.countP Char.isDigit) then false
  else true

/-- The body of the match loop of `DefinitionExtractor.extract`:
threads the accumulated definitions and the `seen_terms` set (modelled
as the list of recorded lower-cased terms). -/
def processDefMatch (minLen maxLen : ℕ) (xref : String → List String)
    (srcDoc jur : Option String) (conf : ℚ)
    (st : List Definition × List String) (m : DefMatch) :
    List Definition × List String :=
  let term := m.term.trim
  let dtext := m.body.trim
  let termLower := term.toLower
  if st.2.contains termLower then st
  else if !isValidDefinition minLen maxLen term dtext then st
  else
    (st.1 ++ [{ term := term
                definition_text := dtext
                source_document := srcDoc
                jurisdiction := jur
                position := m.start
                confidence := conf
                cross_references := xref dtext }],
      st.2 ++ [termLower])

/-- `DefinitionExtractor.extract`: outer loop over the pattern blocks
(match list, confidence), inner loop over that block's matches, then a
final stable sort by position. -/
def extractDefinitions (minLen maxLen : ℕ) (xref : String → List String)
    (srcDoc jur : Option String) (blocks : List (List DefMatch × ℚ)) :
    List Definition :=
  let r := blocks.foldl
    (fun st blk =>
      blk.1.foldl (processDefMatch minLen maxLen xref srcDoc jur blk.2) st)
    ([], [])
  r.1.mergeSort (fun a b => a.position ≤ b.position)

/-- The flattened scan order: pattern-block order first, match order
within a block second, every match paired with its block confidence. -/
def flattenScan (blocks : List (List DefMatch × ℚ)) : List (DefMatch × ℚ) :=
  blocks.flatMap (fun blk => blk.1.map (fun m => (m, blk.2)))

/-- Modelled from the spec: a single first-match-wins pass over the
flattened scan order (an already-recorded lower-cased term is skipped,
regardless of the later match's confidence), followed by the position
sort. -/
def specExtractDefinitions (minLen maxLen : ℕ)
    (xref : String → List String) (srcDoc jur : Option String)
    (blocks : List (List DefMatch × ℚ)) : List Definition :=
  ((flattenScan blocks).foldl
    (fun st mc => processDefMatch minLen maxLen xref srcDoc jur mc.2 st mc.1)
    ([], [])).1.mergeSort (fun a b => a.position ≤ b.position)

/-! ## Enforcement model (`reg_gap.risk.enforcement_model`) -/

inductive EnforcementLikelihood where
  | VERY_LOW
  | LOW
  | MODERATE
  | HIGH
  | VERY_HIGH
deriving DecidableEq

/-- The `.value` of each `EnforcementLikelihood` enum member. -/
def EnforcementLikelihood.value : EnforcementLikelihood → ℚ
  | .VERY_LOW => 0.1
  | .LOW => 0.25
  | .MODERATE => 0.5
  | .HIGH => 0.75
  | .VERY_HIGH => 0.9

inductive EnforcementOutcome where
  | WARNING
  | FINE
  | CEASE_AND_DESIST
  | LICENSE_SUSPENSION
  | LICENSE_REVOCATION
  | CRIMINAL_REFERRAL
  | RESTITUTION
  | INJUNCTION
deriving DecidableEq

structure EnforcementScenario where
  scenario_id : String
  description : String
  interpretation : String
  likelihood : EnforcementLikelihood
  potential_outcomes : List EnforcementOutcome
  severity_score : ℚ
  clause : Option RegulatoryClause := none
  ambiguities : List AmbiguityInstance := []
  mitigating_factors : List String := []
  aggravating_factors : List String := []
  requires_legal_review : Bool := true

/-- `CLAUSE_TYPE_LIKELIHOOD.get(clause_type, MODERATE)`: the dict has no
`UNKNOWN` key, so `UNKNOWN` falls back to the `MODERATE` default. -/
def CLAUSE_TYPE_LIKELIHOOD : ClauseType → EnforcementLikelihood
  | .PROHIBITION => .HIGH
  | .OBLIGATION => .MODERATE
  | .CONDITION => .LOW
  | .PERMISSION => .VERY_LOW
  | .DEFINITION => .VERY_LOW
  | .EXCEPTION => .LOW
  | .UNKNOWN => .MODERATE

/-- `AMBIGUITY_IMPACT` (all eight ambiguity types are keys, so the `0.1`
default of `.get` is dead). -/
def AMBIGUITY_IMPACT : AmbiguityType → ℚ
  | .VAGUE_STANDARD => 0.1
  | .UNDEFINED_TERM => 0.15
  | .SCOPE_UNCLEAR => 0.1
  | .TIMING_UNCLEAR => 0.15
  | .THRESHOLD_UNCLEAR => 0.2
  | .CONFLICTING_CLAUSES => 0.25
  | .CIRCULAR_DEFINITION => 0.1
  | .REFERENCE_AMBIGUITY => 0.1

/-- `EnforcementModel.__init__` normalisation of the conservative
factor: `max(1.0, conservative_factor)`. -/
def mkConservativeFactor (x : ℚ) : ℚ := max 1 x

/-- `EnforcementModel._adjust_likelihood` (its `clause` parameter is
unused in the source body). -/
def adjustLikelihood (cf : ℚ) (base : EnforcementLikelihood)
    (ambs : List AmbiguityInstance) : EnforcementLikelihood :=
  let score := ambs.foldl
    (fun s a => s + AMBIGUITY_IMPACT a.ambiguity_type * a.severity) base.value
  let score := score * cf
  let score := min 0.95 (max 0.05 score)
  if (0.8 : ℚ) ≤ score then .VERY_HIGH
  else if (0.6 : ℚ) ≤ score then .HIGH
  else if (0.4 : ℚ) ≤ score then .MODERATE
  else if (0.2 : ℚ) ≤ score then .LOW
  else .VERY_LOW

/-- `EnforcementModel._determine_outcomes`. -/
def determineOutcomes (c : RegulatoryClause) (l : EnforcementLikelihood) :
    List EnforcementOutcome :=
  if c.clause_type = .PROHIBITION then
    [.CEASE_AND_DESIST, .FINE] ++
      (if (0.7 : ℚ) ≤ l.value then [.LICENSE_SUSPENSION] else [])
  else if c.clause_type = .OBLIGATION then
    [.WARNING] ++ (if (0.5 : ℚ) ≤ l.value then [.FINE] else []) ++
      (if (0.75 : ℚ) ≤ l.value then [.CEASE_AND_DESIST] else [])
  else [.WARNING]

/-- The `outcome_severity` table of `_calculate_severity` (all outcomes
are keys, so the `0.5` default of `.get` is dead). -/
def OUTCOME_SEVERITY : EnforcementOutcome → ℚ
  | .WARNING => 0.1
  | .FINE => 0.4
  | .CEASE_AND_DESIST => 0.6
  | .LICENSE_SUSPENSION => 0.8
  | .LICENSE_REVOCATION => 0.95
  | .CRIMINAL_REFERRAL => 1
  | .RESTITUTION => 0.5
  | .INJUNCTION => 0.7

/-- `EnforcementModel._calculate_severity`. -/
def calculateSeverity (cf : ℚ) (ambs : List AmbiguityInstance)
    (outcomes : List EnforcementOutcome) : ℚ :=
  let m := match outcomes with
    | [] => 0.3
    | o :: rest => rest.foldl (fun acc x => max acc (OUTCOME_SEVERITY x))
        (OUTCOME_SEVERITY o)
  let af := min 0.3 ((ambs.length : ℚ) * 0.05)
  min 1 ((m + af) * cf)

/-- A single-quote character as a string (used by the interpretation
text). -/
def singleQuote : String := (Char.ofNat 39).toString

/-- `EnforcementModel._generate_max_interpretation`. -/
def generateMaxInterpretation (c : RegulatoryClause)
    (ambs : List AmbiguityInstance) : String :=
  "MAXIMUM INTERPRETATION: " ++
    (if c.clause_type = .PROHIBITION then
      "This prohibition would be interpreted to cover the broadest possible scope. "
    else if c.clause_type = .OBLIGATION then
      "This obligation would be interpreted with the strictest compliance standards. "
    else "") ++
    String.join ((ambs.take 3).map (fun a =>
      if a.ambiguity_type = .VAGUE_STANDARD then
        singleQuote ++ a.text ++ singleQuote ++
          " would be interpreted against the regulated entity. "
      else if a.ambiguity_type = .TIMING_UNCLEAR then
        "Timing requirements would be interpreted as requiring immediate action. "
      else if a.ambiguity_type = .THRESHOLD_UNCLEAR then
        "Thresholds would be set at the most stringent reasonable level. "
      else "")) ++
    "This represents a conservative planning scenario, not a prediction."

/-- `EnforcementModel._identify_mitigating_factors`. -/
def identifyMitigatingFactors (c : RegulatoryClause) : List String :=
  (if c.conditions ≠ [] then
    ["Clause contains explicit conditions that may limit applicability"]
  else []) ++
  (if c.exceptions ≠ [] then
    ["Clause contains exceptions that may provide safe harbors"]
  else []) ++
  (if c.clause_type = .PERMISSION then
    ["Clause is permissive rather than mandatory"]
  else [])

/-- `EnforcementModel._identify_aggravating_factors`. -/
def identifyAggravatingFactors (c : RegulatoryClause)
    (ambs : List AmbiguityInstance) : List String :=
  (if c.clause_type = .PROHIBITION then
    ["Prohibition clauses typically face stricter enforcement"]
  else []) ++
  (let hs := ambs.filter (fun a => (0.7 : ℚ) ≤ a.severity)
   if hs ≠ [] then
     [toString hs.length ++
       " high-severity ambiguities increase interpretation risk"]
   else []) ++
  (if c.conditions = [] ∧ c.exceptions = [] then
    ["No explicit conditions or exceptions limits flexibility"]
  else [])

/-- Zero-padded 4-digit counter formatting (Python `f"{n:04d}"`). -/
def pad4 (n : ℕ) : String :=
  if n < 10 then "000" ++ toString n
  else if n < 100 then "00" ++ toString n
  else if n < 1000 then "0" ++ toString n
  else toString n

/-- `EnforcementModel.model_clause_risk`; the mutable scenario counter
is passed explicitly (`counter` is its value before the increment), and
`cf` is the constructor-normalised conservative factor. -/
def modelClauseRisk (cf : ℚ) (counter : ℕ) (c : RegulatoryClause)
    (ambs : List AmbiguityInstance) : EnforcementScenario :=
  let likelihood := adjustLikelihood cf (CLAUSE_TYPE_LIKELIHOOD c.clause_type) ambs
  let outcomes := determineOutcomes c likelihood
  { scenario_id := "ENF-" ++ pad4 (counter + 1)
    description := "Enforcement scenario for " ++
      clauseTypeValue c.clause_type ++ " clause"
    interpretation := generateMaxInterpretation c ambs
    likelihood := likelihood
    potential_outcomes := outcomes
    severity_score := calculateSeverity cf ambs outcomes
    clause := some c
    ambiguities := ambs
    mitigating_factors := identifyMitigatingFactors c
    aggravating_factors := identifyAggravatingFactors c ambs
    requires_legal_review := true }

/-! ## Confidence bounds (`reg_gap.risk.confidence_bounds`)

`math.sqrt` forces real arithmetic, so this module is modelled over
`ℝ`.  The `assert` in `RiskInterval.__post_init__` is modelled by an
`Option`-returning constructor; Python `round(x, 4)` (round half to
even on the scaled value) is `round4`. -/

structure RiskInterval where
  point_estimate : ℝ
  lower_bound : ℝ
  upper_bound : ℝ
  confidence_level : ℝ

/-- The `__post_init__` invariant of `RiskInterval`:
`0 <= lower <= point <= upper <= 1` and `0 < confidence_level < 1`. -/
def RiskIntervalValid (point lower upper conf : ℝ) : Prop :=
  (0 ≤ lower ∧ lower ≤ point ∧ point ≤ upper ∧ upper ≤ 1) ∧
    0 < conf ∧ conf < 1

noncomputable instance (point lower upper conf : ℝ) :
    Decidable (RiskIntervalValid point lower upper conf) := by
  unfold RiskIntervalValid
  infer_instance

/-- Constructing a `RiskInterval`: the `assert` raises (`none`) exactly
when the invariant fails, and the stored fields are the arguments
unchanged (no clamping). -/
noncomputable def mkRiskInterval (point lower upper conf : ℝ) :
    Option RiskInterval :=
  if RiskIntervalValid point lower upper conf then
    some ⟨point, lower, upper, conf⟩
  else none

/-- `BASE_UNCERTAINTY.get(assessment_type, 0.25)`. -/
def BASE_UNCERTAINTY (t : String) : ℝ :=
  if t = "clause_extraction" then 0.15
  else if t = "ambiguity_detection" then 0.20
  else if t = "semantic_comparison" then 0.25
  else if t = "enforcement_modeling" then 0.30
  else if t = "jurisdictional_gap" then 0.20
  else 0.25

/-- `ConfidenceBounds._approximate_z_score`: dictionary lookup for the
three named confidence levels first, then piecewise linear
interpolation. -/
noncomputable def approximateZScore (c : ℝ) : ℝ :=
  if c = 0.90 then 1.645
  else if c = 0.95 then 1.96
  else if c = 0.99 then 2.576
  else if c < 0.90 then 1.645 * (c / 0.90)
  else if c < 0.95 then 1.645 + (1.96 - 1.645) * ((c - 0.90) / 0.05)
  else 1.96 + (2.576 - 1.96) * ((c - 0.95) / 0.04)

/-- The `uncertainty` value of `calculate_bounds`: base uncertainty,
widened by low sample confidence, narrowed by `sqrt(n_observations)`
when `n_observations > 1`. -/
noncomputable def uncertaintyOf (atype : String) (sampleConfidence : ℝ)
    (n : ℕ) : ℝ :=
  let u := BASE_UNCERTAINTY atype * (1 + (1 - sampleConfidence) * 0.5)
  if 1 < n then u / Real.sqrt n else u

/-- The `half_width` value of `calculate_bounds`. -/
noncomputable def halfWidth (conf : ℝ) (atype : String) (sc : ℝ) (n : ℕ) : ℝ :=
  approximateZScore conf * uncertaintyOf atype sc n

/-- `lower = max(0, point_estimate - half_width * (1 - conservative_bias))`. -/
noncomputable def lowerRaw (conf bias p : ℝ) (atype : String) (sc : ℝ)
    (n : ℕ) : ℝ :=
  max 0 (p - halfWidth conf atype sc n * (1 - bias))

/-- `upper = min(1, point_estimate + half_width * (1 + conservative_bias))`. -/
noncomputable def upperRaw (conf bias p : ℝ) (atype : String) (sc : ℝ)
    (n : ℕ) : ℝ :=
  min 1 (p + halfWidth conf atype sc n * (1 + bias))

/-- `point_estimate = max(lower, min(upper, point_estimate))`. -/
noncomputable def pointClamped (conf bias p : ℝ) (atype : String) (sc : ℝ)
    (n : ℕ) : ℝ :=
  max (lowerRaw conf bias p atype sc n) (min (upperRaw conf bias p atype sc n) p)

/-- Round half to even to an integer (Python `round` on the exact
value). -/
noncomputable def roundHalfEvenInt (x : ℝ) : ℤ :=
  if x - ⌊x⌋ < 1 / 2 then ⌊x⌋
  else if (1 / 2 : ℝ) < x - ⌊x⌋ then ⌊x⌋ + 1
  else if Even ⌊x⌋ then ⌊x⌋ else ⌊x⌋ + 1

/-- Python `round(x, 4)`. -/
noncomputable def round4 (x : ℝ) : ℝ :=
  (roundHalfEvenInt (x * 10000) : ℝ) / 10000

/-- `ConfidenceBounds.calculate_bounds`: rounded clamped bounds fed to
the `RiskInterval` constructor (`none` models the assertion firing). -/
noncomputable def calculateBounds (conf bias p : ℝ) (atype : String)
    (sc : ℝ) (n : ℕ) : Option RiskInterval :=
  mkRiskInterval (round4 (pointClamped conf bias p atype sc n))
    (round4 (lowerRaw conf bias p atype sc n))
    (round4 (upperRaw conf bias p atype sc n)) conf

/-! ## Theorems -/

/-- C1: classification follows the fixed precedence order PROHIBITION,
OBLIGATION, PERMISSION, EXCEPTION, CONDITION, DEFINITION, UNKNOWN with
first match winning, so every sentence matching a prohibition pattern
is classified PROHIBITION regardless of which other pattern families
also match. -/
theorem classification_precedence_C1 (s : String) :
    classifyClause s = specClassifyClause s ∧
    (matchesProhibition s = true → classifyClause s = ClauseType.PROHIBITION) := by
  constructor
  · unfold classifyClause specClassifyClause
    cases hP : matchesProhibition s <;>
      cases hO : matchesObligation s <;>
        cases hPe : matchesPermission s <;>
          cases hE : matchesException s <;>
            cases hC : matchesCondition s <;>
              cases hD : isDefinitionSentence s <;>
                simp [List.find?]
  · intro h
    unfold classifyClause
    rw [h]
    simp

/-- C1 witness: "No broker shall be required to act" matches both a
prohibition pattern and an obligation pattern, and is classified
PROHIBITION. -/
theorem classification_precedence_C1_witness :
    matchesProhibition "No broker shall be required to act" = true ∧
    matchesObligation "No broker shall be required to act" = true ∧
    classifyClause "No broker shall be required to act" =
      ClauseType.PROHIBITION :=
  ⟨by decide, by decide,
    (classification_precedence_C1 "No broker shall be required to act").2
      (by decide)⟩

/-- C3: `RiskInterval` construction succeeds, storing the arguments
unchanged (no clamping), exactly when
`0 ≤ lower ≤ point ≤ upper ≤ 1` and `0 < confidence_level < 1`;
otherwise it fails (`none`, modelling the assertion). -/
theorem risk_interval_construction_C3 (point lower upper conf : ℝ) :
    (mkRiskInterval point lower upper conf =
        some { point_estimate := point, lower_bound := lower,
               upper_bound := upper, confidence_level := conf } ↔
      (0 ≤ lower ∧ lower ≤ point ∧ point ≤ upper ∧ upper ≤ 1) ∧
        0 < conf ∧ conf < 1) ∧
    (mkRiskInterval point lower upper conf = none ↔
      ¬ ((0 ≤ lower ∧ lower ≤ point ∧ point ≤ upper ∧ upper ≤ 1) ∧
        0 < conf ∧ conf < 1)) := by
  by_cases h : RiskIntervalValid point lower upper conf
  · have hs : mkRiskInterval point lower upper conf =
        some { point_estimate := point, lower_bound := lower,
               upper_bound := upper, confidence_level := conf } := by
      unfold mkRiskInterval
      rw [if_pos h]
    refine ⟨⟨fun _ => h, fun _ => hs⟩, ?_, fun hn => absurd h hn⟩
    intro heq
    rw [hs] at heq
    exact absurd heq (by simp)
  · have hs : mkRiskInterval point lower upper conf = none := by
      unfold mkRiskInterval
      rw [if_neg h]
    refine ⟨⟨?_, fun hch => absurd hch h⟩, fun _ => h, fun _ => hs⟩
    intro heq
    rw [hs] at heq
    exact absurd heq (by simp)

theorem floor_le_roundHalfEvenInt (x : ℝ) : ⌊x⌋ ≤ roundHalfEvenInt x := by
  unfold roundHalfEvenInt
  split_ifs <;> omega

theorem roundHalfEvenInt_le_floor_succ (x : ℝ) :
    roundHalfEvenInt x ≤ ⌊x⌋ + 1 := by
  unfold roundHalfEvenInt
  split_ifs <;> omega

theorem roundHalfEvenInt_mono {x y : ℝ} (h : x ≤ y) :
    roundHalfEvenInt x ≤ roundHalfEvenInt y := by
  have hf : ⌊x⌋ ≤ ⌊y⌋ := Int.floor_le_floor h
  rcases lt_or_eq_of_le hf with hlt | heq
  · calc roundHalfEvenInt x ≤ ⌊x⌋ + 1 := roundHalfEvenInt_le_floor_succ x
      _ ≤ ⌊y⌋ := by omega
      _ ≤ roundHalfEvenInt y := floor_le_roundHalfEvenInt y
  · unfold roundHalfEvenInt
    rw [← heq]
    have hxy : x - (⌊x⌋ : ℝ) ≤ y - (⌊x⌋ : ℝ) := by linarith
    split_ifs <;> first | omega | linarith | tauto

theorem roundHalfEvenInt_nonneg {x : ℝ} (h : 0 ≤ x) :
    0 ≤ roundHalfEvenInt x := by
  have : (0 : ℤ) ≤ ⌊x⌋ := Int.floor_nonneg.mpr h
  have := floor_le_roundHalfEvenInt x
  omega

theorem roundHalfEvenInt_le_of_le_int {x : ℝ} {m : ℤ} (h : x ≤ (m : ℝ)) :
    roundHalfEvenInt x ≤ m := by
  have hfl : ⌊x⌋ ≤ m := by
    have h1 : (⌊x⌋ : ℝ) ≤ x := Int.floor_le x
    exact_mod_cast le_trans h1 h
  unfold roundHalfEvenInt
  split_ifs with h1 h2 h3
  · exact hfl
  · by_contra hcon
    have hm : ⌊x⌋ = m := by omega
    rw [hm] at h1
    have : x - (m : ℝ) ≤ 0 := by linarith
    exact h1 (by linarith)
  · exact hfl
  · by_contra hcon
    have hm : ⌊x⌋ = m := by omega
    rw [hm] at h1
    have : x - (m : ℝ) ≤ 0 := by linarith
    exact h1 (by linarith)

theorem roundHalfEvenInt_err (x : ℝ) :
    x - 1 / 2 ≤ (roundHalfEvenInt x : ℝ) ∧
      (roundHalfEvenInt x : ℝ) ≤ x + 1 / 2 := by
  have hfl : (⌊x⌋ : ℝ) ≤ x := Int.floor_le x
  have hfu : x < (⌊x⌋ : ℝ) + 1 := Int.lt_floor_add_one x
  unfold roundHalfEvenInt
  split_ifs with h1 h2 h3 <;> constructor <;> push_cast <;> linarith

theorem roundHalfEvenInt_intCast (m : ℤ) : roundHalfEvenInt (m : ℝ) = m := by
  unfold roundHalfEvenInt
  rw [Int.floor_intCast]
  rw [if_pos (by norm_num)]

theorem round4_mono {x y : ℝ} (h : x ≤ y) : round4 x ≤ round4 y := by
  unfold round4
  have : roundHalfEvenInt (x * 10000) ≤ roundHalfEvenInt (y * 10000) :=
    roundHalfEvenInt_mono (by linarith)
  have hc : ((roundHalfEvenInt (x * 10000) : ℝ)) ≤
      ((roundHalfEvenInt (y * 10000) : ℝ)) := by exact_mod_cast this
  linarith

theorem round4_nonneg {x : ℝ} (h : 0 ≤ x) : 0 ≤ round4 x := by
  unfold round4
  have : (0 : ℤ) ≤ roundHalfEvenInt (x * 10000) :=
    roundHalfEvenInt_nonneg (by linarith)
  have hc : (0 : ℝ) ≤ (roundHalfEvenInt (x * 10000) : ℝ) := by exact_mod_cast this
  linarith

theorem round4_le_one {x : ℝ} (h : x ≤ 1) : round4 x ≤ 1 := by
  unfold round4
  have : roundHalfEvenInt (x * 10000) ≤ (10000 : ℤ) :=
    roundHalfEvenInt_le_of_le_int (by push_cast; linarith)
  have hc : (roundHalfEvenInt (x * 10000) : ℝ) ≤ 10000 := by exact_mod_cast this
  linarith

theorem round4_err (x : ℝ) :
    x - 1 / 20000 ≤ round4 x ∧ round4 x ≤ x + 1 / 20000 := by
  unfold round4
  have h := roundHalfEvenInt_err (x * 10000)
  constructor <;> [linarith [h.1]; linarith [h.2]]

theorem round4_eq_of_int {x : ℝ} {m : ℤ} (h : x * 10000 = (m : ℝ)) :
    round4 x = (m : ℝ) / 10000 := by
  unfold round4
  rw [h, roundHalfEvenInt_intCast]

theorem approximateZScore_nonneg {c : ℝ} (h : 0 < c) :
    0 ≤ approximateZScore c := by
  unfold approximateZScore
  split_ifs with h1 h2 h3 h4 h5 <;> try norm_num
  · positivity
  · have h6 : (0.90 : ℝ) ≤ c := not_lt.mp h4
    have h7 : (0 : ℝ) ≤ (c - 0.90) / 0.05 :=
      div_nonneg (by linarith) (by norm_num)
    linarith
  · have h6 : (0.95 : ℝ) ≤ c := not_lt.mp h5
    have h7 : (0 : ℝ) ≤ (c - 0.95) / 0.04 :=
      div_nonneg (by linarith) (by norm_num)
    linarith

theorem baseUncertainty_nonneg (t : String) : 0 ≤ BASE_UNCERTAINTY t := by
  unfold BASE_UNCERTAINTY
  split_ifs <;> norm_num

theorem uncertaintyOf_nonneg {atype : String} {sc : ℝ} {n : ℕ}
    (hsc : sc ≤ 1) : 0 ≤ uncertaintyOf atype sc n := by
  unfold uncertaintyOf
  have hb := baseUncertainty_nonneg atype
  have hfac : (0 : ℝ) ≤ 1 + (1 - sc) * 0.5 := by nlinarith
  have hu : (0 : ℝ) ≤ BASE_UNCERTAINTY atype * (1 + (1 - sc) * 0.5) :=
    mul_nonneg hb hfac
  split_ifs
  · exact div_nonneg hu (Real.sqrt_nonneg _)
  · exact hu

theorem halfWidth_nonneg {conf : ℝ} {atype : String} {sc : ℝ} {n : ℕ}
    (hc : 0 < conf) (hsc : sc ≤ 1) : 0 ≤ halfWidth conf atype sc n :=
  mul_nonneg (approximateZScore_nonneg hc) (uncertaintyOf_nonneg hsc)

/-- C10: under the documented parameter ranges (point estimate and
sample confidence in `[0,1]`, at least one observation, conservative
bias in `[0,1]`, confidence level strictly between 0 and 1) the
clamped, re-clamped and rounded values of `calculate_bounds` always
satisfy the `RiskInterval` constructor invariant, so construction never
fails. -/
theorem calculate_bounds_valid_C10 (conf bias p sc : ℝ) (atype : String)
    (n : ℕ) (hp0 : 0 ≤ p) (hp1 : p ≤ 1) (hsc0 : 0 ≤ sc) (hsc1 : sc ≤ 1)
    (hb0 : 0 ≤ bias) (hb1 : bias ≤ 1) (hc0 : 0 < conf) (hc1 : conf < 1)
    (hn : 1 ≤ n) :
    RiskIntervalValid (round4 (pointClamped conf bias p atype sc n))
      (round4 (lowerRaw conf bias p atype sc n))
      (round4 (upperRaw conf bias p atype sc n)) conf ∧
    (calculateBounds conf bias p atype sc n).isSome = true := by
  have hhw : 0 ≤ halfWidth conf atype sc n := halfWidth_nonneg hc0 hsc1
  have h1 : 0 ≤ lowerRaw conf bias p atype sc n := le_max_left _ _
  have h2 : lowerRaw conf bias p atype sc n ≤ p := by
    unfold lowerRaw
    have : 0 ≤ halfWidth conf atype sc n * (1 - bias) :=
      mul_nonneg hhw (by linarith)
    exact max_le hp0 (by linarith)
  have h3 : p ≤ upperRaw conf bias p atype sc n := by
    unfold upperRaw
    have : 0 ≤ halfWidth conf atype sc n * (1 + bias) :=
      mul_nonneg hhw (by linarith)
    exact le_min hp1 (by linarith)
  have h4 : upperRaw conf bias p atype sc n ≤ 1 := min_le_left _ _
  have h5 : lowerRaw conf bias p atype sc n ≤ upperRaw conf bias p atype sc n :=
    le_trans h2 h3
  have hpc1 : lowerRaw conf bias p atype sc n ≤
      pointClamped conf bias p atype sc n := le_max_left _ _
  have hpc2 : pointClamped conf bias p atype sc n ≤
      upperRaw conf bias p atype sc n :=
    max_le h5 (min_le_left _ _)
  have hvalid : RiskIntervalValid
      (round4 (pointClamped conf bias p atype sc n))
      (round4 (lowerRaw conf bias p atype sc n))
      (round4 (upperRaw conf bias p atype sc n)) conf :=
    ⟨⟨round4_nonneg h1, round4_mono hpc1, round4_mono hpc2,
      round4_le_one h4⟩, hc0, hc1⟩
  refine ⟨hvalid, ?_⟩
  unfold calculateBounds mkRiskInterval
  rw [if_pos hvalid]
  rfl

/-- C10 witness: a concrete invocation satisfying every hypothesis of
`calculate_bounds_valid_C10`, so the constructed interval exists. -/
theorem calculate_bounds_valid_C10_witness :
    (calculateBounds 0.95 0.1 0.5 "clause_extraction" 0.5 2).isSome = true :=
  (calculate_bounds_valid_C10 0.95 0.1 0.5 0.5 "clause_extraction" 2
    (by norm_num) (by norm_num) (by norm_num) (by norm_num) (by norm_num)
    (by norm_num) (by norm_num) (by norm_num) (by norm_num)).2

theorem approximateZScore_at_095 : approximateZScore 0.95 = 1.96 := by
  unfold approximateZScore
  rw [if_neg (by norm_num), if_pos rfl]

theorem baseUncertainty_semantic :
    BASE_UNCERTAINTY "semantic_comparison" = 0.25 := by
  unfold BASE_UNCERTAINTY
  rw [if_neg (by decide), if_neg (by decide), if_pos rfl]

theorem uncertaintyOf_semantic_full_conf :
    uncertaintyOf "semantic_comparison" 1 1 = 0.25 := by
  unfold uncertaintyOf
  rw [baseUncertainty_semantic]
  norm_num

theorem halfWidth_semantic_full_conf :
    halfWidth 0.95 "semantic_comparison" 1 1 = 0.49 := by
  unfold halfWidth
  rw [approximateZScore_at_095, uncertaintyOf_semantic_full_conf]
  norm_num

/-- C7 (amended): when the upper clamp at 1 does not bind
(`point_estimate + half_width*(1+bias) ≤ 1`) and the conservative skew
exceeds the 4-decimal rounding granularity
(`half_width*bias ≥ 1/10000`), the returned interval extends at least
as far above the point estimate as below it. -/
theorem conservative_skew_C7 (conf bias p sc : ℝ) (atype : String) (n : ℕ)
    (hp0 : 0 ≤ p) (hp1 : p ≤ 1) (hsc1 : sc ≤ 1) (hb0 : 0 < bias)
    (hb1 : bias ≤ 1) (hc0 : 0 < conf)
    (hnc : p + halfWidth conf atype sc n * (1 + bias) ≤ 1)
    (hmargin : 1 / 10000 ≤ halfWidth conf atype sc n * bias) :
    round4 (pointClamped conf bias p atype sc n) -
        round4 (lowerRaw conf bias p atype sc n) ≤
      round4 (upperRaw conf bias p atype sc n) -
        round4 (pointClamped conf bias p atype sc n) := by
  have hhw : 0 ≤ halfWidth conf atype sc n := halfWidth_nonneg hc0 hsc1
  have hu : upperRaw conf bias p atype sc n =
      p + halfWidth conf atype sc n * (1 + bias) := by
    unfold upperRaw
    exact min_eq_right hnc
  have hl1 : p - halfWidth conf atype sc n * (1 - bias) ≤
      lowerRaw conf bias p atype sc n := le_max_right _ _
  have hl2 : lowerRaw conf bias p atype sc n ≤ p := by
    unfold lowerRaw
    refine max_le hp0 ?_
    nlinarith
  have hup : p ≤ upperRaw conf bias p atype sc n := by
    rw [hu]
    nlinarith
  have hpc : pointClamped conf bias p atype sc n = p := by
    unfold pointClamped
    rw [min_eq_right hup]
    exact max_eq_right hl2
  have e1 := round4_err (pointClamped conf bias p atype sc n)
  have e2 := round4_err (lowerRaw conf bias p atype sc n)
  have e3 := round4_err (upperRaw conf bias p atype sc n)
  rw [hpc] at e1
  rw [hu] at e3
  have h2l := e2.1
  have h3l := e3.1
  have h1u := e1.2
  have hring : halfWidth conf atype sc n * (1 + bias) -
      halfWidth conf atype sc n * (1 - bias) =
      2 * (halfWidth conf atype sc n * bias) := by ring
  rw [hpc, hu]
  linarith [h2l, h3l, h1u, hl1, hmargin, hring]

/-- C7 witness: a concrete call (defaults `confidence_level = 0.95`,
`conservative_bias = 0.1`; `point_estimate = 0.4`,
`"semantic_comparison"`, full sample confidence, one observation)
satisfying every hypothesis of `conservative_skew_C7`, whose interval is
skewed upward. -/
theorem conservative_skew_C7_witness :
    ((0 : ℝ) ≤ 0.4 ∧ (0.4 : ℝ) ≤ 1 ∧ (0 : ℝ) < 0.1 ∧
      (0.4 : ℝ) + halfWidth 0.95 "semantic_comparison" 1 1 * (1 + 0.1) ≤ 1 ∧
      (1 / 10000 : ℝ) ≤ halfWidth 0.95 "semantic_comparison" 1 1 * 0.1) ∧
    round4 (pointClamped 0.95 0.1 0.4 "semantic_comparison" 1 1) -
        round4 (lowerRaw 0.95 0.1 0.4 "semantic_comparison" 1 1) ≤
      round4 (upperRaw 0.95 0.1 0.4 "semantic_comparison" 1 1) -
        round4 (pointClamped 0.95 0.1 0.4 "semantic_comparison" 1 1) := by
  have hhw := halfWidth_semantic_full_conf
  refine ⟨⟨by norm_num, by norm_num, by norm_num, by rw [hhw]; norm_num,
    by rw [hhw]; norm_num⟩, ?_⟩
  exact conservative_skew_C7 0.95 0.1 0.4 1 "semantic_comparison" 1
    (by norm_num) (by norm_num) (by norm_num) (by norm_num) (by norm_num)
    (by norm_num) (by rw [hhw]; norm_num) (by rw [hhw]; norm_num)

/-- C7 counterexample: at `point_estimate = 0.98` (in `[0,1]`) with the
default positive bias `0.1`, default confidence level `0.95`,
`"semantic_comparison"`, sample confidence 1 and one observation, the
upper bound clamps to 1 and the returned interval has
`upper - point = 0.02 < 0.441 = point - lower`, refuting the claimed
inequality for every call. -/
theorem conservative_skew_C7_counterexample :
    calculateBounds 0.95 0.1 0.98 "semantic_comparison" 1 1 =
      some { point_estimate := 0.98, lower_bound := 0.539,
             upper_bound := 1, confidence_level := 0.95 } ∧
    ¬ ((0.98 : ℝ) - 0.539 ≤ 1 - 0.98) := by
  have hhw := halfWidth_semantic_full_conf
  have hl : lowerRaw 0.95 0.1 0.98 "semantic_comparison" 1 1 = 0.539 := by
    unfold lowerRaw
    rw [hhw, show (0.98 : ℝ) - 0.49 * (1 - 0.1) = 0.539 by norm_num]
    exact max_eq_right (by norm_num)
  have hu : upperRaw 0.95 0.1 0.98 "semantic_comparison" 1 1 = 1 := by
    unfold upperRaw
    rw [hhw]
    exact min_eq_left (by norm_num)
  have hp : pointClamped 0.95 0.1 0.98 "semantic_comparison" 1 1 = 0.98 := by
    unfold pointClamped
    rw [hl, hu, min_eq_right (by norm_num : (0.98 : ℝ) ≤ 1)]
    exact max_eq_right (by norm_num)
  constructor
  · unfold calculateBounds
    rw [hl, hu, hp]
    rw [round4_eq_of_int (show (0.98 : ℝ) * 10000 = ((9800 : ℤ) : ℝ) by norm_num),
      round4_eq_of_int (show (0.539 : ℝ) * 10000 = ((5390 : ℤ) : ℝ) by norm_num),
      round4_eq_of_int (show (1 : ℝ) * 10000 = ((10000 : ℤ) : ℝ) by norm_num)]
    rw [show ((9800 : ℤ) : ℝ) / 10000 = (0.98 : ℝ) by norm_num,
      show ((5390 : ℤ) : ℝ) / 10000 = (0.539 : ℝ) by norm_num,
      show ((10000 : ℤ) : ℝ) / 10000 = (1 : ℝ) by norm_num]
    unfold mkRiskInterval
    rw [if_pos (by unfold RiskIntervalValid; norm_num)]
  · norm_num

/-- C5: every scenario from `model_clause_risk` has
`requires_legal_review = true`; for PROHIBITION clauses the outcome set
always contains CEASE_AND_DESIST and FINE, and contains
LICENSE_SUSPENSION exactly when the adjusted likelihood value is at
least 0.7. -/
theorem enforcement_outcomes_C5 (cf : ℚ) (counter : ℕ)
    (c : RegulatoryClause) (ambs : List AmbiguityInstance) :
    (modelClauseRisk cf counter c ambs).requires_legal_review = true ∧
    (c.clause_type = ClauseType.PROHIBITION →
      EnforcementOutcome.CEASE_AND_DESIST ∈
          (modelClauseRisk cf counter c ambs).potential_outcomes ∧
      EnforcementOutcome.FINE ∈
          (modelClauseRisk cf counter c ambs).potential_outcomes ∧
      (EnforcementOutcome.LICENSE_SUSPENSION ∈
          (modelClauseRisk cf counter c ambs).potential_outcomes ↔
        (0.7 : ℚ) ≤
          (adjustLikelihood cf (CLAUSE_TYPE_LIKELIHOOD c.clause_type)
            ambs).value)) := by
  constructor
  · rfl
  · intro h
    have houtcomes : (modelClauseRisk cf counter c ambs).potential_outcomes =
        determineOutcomes c
          (adjustLikelihood cf (CLAUSE_TYPE_LIKELIHOOD c.clause_type) ambs) :=
      rfl
    rw [houtcomes]
    unfold determineOutcomes
    rw [if_pos h]
    by_cases hl : (0.7 : ℚ) ≤
        (adjustLikelihood cf (CLAUSE_TYPE_LIKELIHOOD c.clause_type) ambs).value
    · rw [if_pos hl]
      exact ⟨by simp, by simp, iff_of_true (by simp) hl⟩
    · rw [if_neg hl]
      exact ⟨by simp, by simp, iff_of_false (by simp) hl⟩

theorem adjustLikelihood_prohibition_default :
    adjustLikelihood 1.2 (CLAUSE_TYPE_LIKELIHOOD ClauseType.PROHIBITION) [] =
      EnforcementLikelihood.VERY_HIGH := by
  unfold adjustLikelihood CLAUSE_TYPE_LIKELIHOOD
  simp only [List.foldl]
  have h1 : EnforcementLikelihood.HIGH.value * 1.2 = (0.9 : ℚ) := by
    norm_num [EnforcementLikelihood.value]
  simp only [h1]
  have h2 : max (0.05 : ℚ) 0.9 = 0.9 := max_eq_right (by norm_num)
  simp only [h2]
  have h3 : min (0.95 : ℚ) 0.9 = 0.9 := min_eq_right (by norm_num)
  simp only [h3]
  rw [if_pos (by norm_num : (0.8 : ℚ) ≤ 0.9)]

/-- C5 witness: a concrete prohibition clause under the default
conservative factor 1.2 with no ambiguities: review is required, the
outcomes include CEASE_AND_DESIST and FINE, and (the adjusted
likelihood being VERY_HIGH, value 0.9 ≥ 0.7) LICENSE_SUSPENSION. -/
theorem enforcement_outcomes_C5_witness :
    (modelClauseRisk 1.2 0
        { text := "No person shall trade", clause_type := .PROHIBITION }
        []).requires_legal_review = true ∧
    EnforcementOutcome.CEASE_AND_DESIST ∈
      (modelClauseRisk 1.2 0
        { text := "No person shall trade", clause_type := .PROHIBITION }
        []).potential_outcomes ∧
    EnforcementOutcome.FINE ∈
      (modelClauseRisk 1.2 0
        { text := "No person shall trade", clause_type := .PROHIBITION }
        []).potential_outcomes ∧
    EnforcementOutcome.LICENSE_SUSPENSION ∈
      (modelClauseRisk 1.2 0
        { text := "No person shall trade", clause_type := .PROHIBITION }
        []).potential_outcomes := by
  have h := enforcement_outcomes_C5 1.2 0
    { text := "No person shall trade", clause_type := .PROHIBITION } []
  have hl : (0.7 : ℚ) ≤
      (adjustLikelihood 1.2
        (CLAUSE_TYPE_LIKELIHOOD ClauseType.PROHIBITION) []).value := by
    rw [adjustLikelihood_prohibition_default]
    norm_num [EnforcementLikelihood.value]
  exact ⟨h.1, (h.2 rfl).1, (h.2 rfl).2.1, ((h.2 rfl).2.2).mpr hl⟩

theorem bestFold_snd_mono (sim : String → String → ℚ) (th : ℚ) (a : String)
    (matched : List ℕ) (l : List (ℕ × RegulatoryClause)) :
    ∀ st : Option (ℕ × RegulatoryClause) × ℚ,
      st.2 ≤ (l.foldl (bestStep sim th a matched) st).2 := by
  induction l with
  | nil => intro st; exact le_refl _
  | cons ib l ih =>
      intro st
      simp only [List.foldl_cons]
      refine le_trans ?_ (ih (bestStep sim th a matched st ib))
      unfold bestStep
      split_ifs with h1 h2
      · exact le_refl _
      · exact le_of_lt h2.1
      · exact le_refl _

theorem bestFold_candidate_le (sim : String → String → ℚ) (th : ℚ)
    (a : String) (matched : List ℕ) (l : List (ℕ × RegulatoryClause)) :
    ∀ (st : Option (ℕ × RegulatoryClause) × ℚ) (j : ℕ)
      (c : RegulatoryClause), (j, c) ∈ l → matched.contains j = false →
      th ≤ sim a c.text →
      sim a c.text ≤ (l.foldl (bestStep sim th a matched) st).2 := by
  induction l with
  | nil =>
      intro st j c h
      exact absurd h (List.not_mem_nil _)
  | cons ib l ih =>
      intro st j c hmem hcon hth
      simp only [List.foldl_cons]
      rcases List.mem_cons.mp hmem with heq | htail
      · rw [← heq]
        refine le_trans ?_
          (bestFold_snd_mono sim th a matched l (bestStep sim th a matched st (j, c)))
        unfold bestStep
        rw [if_neg (show ¬(matched.contains (j, c).1 = true) by
          show ¬(matched.contains j = true)
          rw [hcon]
          simp)]
        split_ifs with h2
        · exact le_refl _
        · rcases not_and_or.mp h2 with h3 | h3
          · exact le_of_not_lt h3
          · exact absurd hth h3
      · exact ih (bestStep sim th a matched st ib) j c htail hcon hth

theorem bestFold_some_spec (sim : String → String → ℚ) (th : ℚ)
    (a : String) (matched : List ℕ) (l : List (ℕ × RegulatoryClause)) :
    ∀ (st : Option (ℕ × RegulatoryClause) × ℚ), 0 ≤ st.2 →
      ∀ (i : ℕ) (b : RegulatoryClause),
        (l.foldl (bestStep sim th a matched) st).1 = some (i, b) →
        (st.1 = some (i, b) ∧
          (l.foldl (bestStep sim th a matched) st).2 = st.2) ∨
        ((i, b) ∈ l ∧ matched.contains i = false ∧
          (l.foldl (bestStep sim th a matched) st).2 = sim a b.text ∧
          th ≤ sim a b.text ∧ 0 < sim a b.text) := by
  induction l with
  | nil =>
      intro st _ i b hsome
      exact Or.inl ⟨hsome, rfl⟩
  | cons ib l ih =>
      intro st h0 i b hsome
      simp only [List.foldl_cons] at hsome ⊢
      by_cases hc : matched.contains ib.1 = true
      · have hstep : bestStep sim th a matched st ib = st := by
          unfold bestStep
          rw [if_pos hc]
        rw [hstep] at hsome ⊢
        rcases ih st h0 i b hsome with h | h
        · exact Or.inl h
        · exact Or.inr ⟨List.mem_cons_of_mem _ h.1, h.2⟩
      · by_cases hacc : st.2 < sim a ib.2.text ∧ th ≤ sim a ib.2.text
        · have hstep : bestStep sim th a matched st ib =
              (some ib, sim a ib.2.text) := by
            unfold bestStep
            rw [if_neg hc, if_pos hacc]
          rw [hstep] at hsome ⊢
          have hpos : (0 : ℚ) < sim a ib.2.text := lt_of_le_of_lt h0 hacc.1
          rcases ih (some ib, sim a ib.2.text) (le_of_lt hpos) i b hsome with
            h | h
          · have hib : ib = (i, b) := by
              have := h.1
              simpa using this
            refine Or.inr ⟨?_, ?_, ?_, ?_, ?_⟩
            · rw [← hib]; exact List.mem_cons_self _ _
            · rw [← show ib.1 = i from by rw [hib]]
              exact Bool.not_eq_true _ ▸ (by simpa using hc)
            · rw [h.2, ← show ib.2 = b from by rw [hib]]
            · rw [← show ib.2 = b from by rw [hib]]; exact hacc.2
            · rw [← show ib.2 = b from by rw [hib]]; exact hpos
          · exact Or.inr ⟨List.mem_cons_of_mem _ h.1, h.2⟩
        · have hstep : bestStep sim th a matched st ib = st := by
            unfold bestStep
            rw [if_neg hc, if_neg hacc]
          rw [hstep] at hsome ⊢
          rcases ih st h0 i b hsome with h | h
          · exact Or.inl h
          · exact Or.inr ⟨List.mem_cons_of_mem _ h.1, h.2⟩

theorem analyzeDifference_clause_b (a b : RegulatoryClause) (s : ℚ) :
    (analyzeDifference a b s).clause_b = some b := rfl

theorem analyzeDifference_not_novel (a b : RegulatoryClause) (s : ℚ) :
    (analyzeDifference a b s).difference_type ≠ DifferenceType.NOVEL := by
  unfold analyzeDifference
  split_ifs <;> (try simp) <;> (split_ifs <;> simp)

theorem compareAux_c9 (sim : String → String → ℚ) (th : ℚ) (ja jb : String) :
    ∀ (cas bs : List RegulatoryClause) (matched : List ℕ)
      (d : ClauseDifference),
      d ∈ (compareAux sim th ja jb cas bs matched).1 →
      (d.clause_b = none ↔ d.difference_type = DifferenceType.NOVEL) := by
  intro cas
  induction cas with
  | nil =>
      intro bs matched d h
      exact absurd h (List.not_mem_nil _)
  | cons ca cas ih =>
      intro bs matched d hmem
      cases hbm : (bestMatchFold sim th ca.text bs matched).1 with
      | none =>
          simp only [compareAux, hbm] at hmem
          rcases List.mem_cons.mp hmem with heq | htail
          · rw [heq]
            exact iff_of_true rfl rfl
          · exact ih bs matched d htail
      | some ib =>
          simp only [compareAux, hbm] at hmem
          rcases List.mem_cons.mp hmem with heq | htail
          · rw [heq]
            refine iff_of_false ?_ (analyzeDifference_not_novel _ _ _)
            rw [analyzeDifference_clause_b]
            simp
          · exact ih bs (matched ++ [ib.1]) d htail

theorem compareAux_nodup (sim : String → String → ℚ) (th : ℚ)
    (ja jb : String) :
    ∀ (cas bs : List RegulatoryClause) (matched : List ℕ), matched.Nodup →
      ((compareAux sim th ja jb cas bs matched).2).Nodup := by
  intro cas
  induction cas with
  | nil =>
      intro bs matched h
      exact h
  | cons ca cas ih =>
      intro bs matched h
      cases hbm : (bestMatchFold sim th ca.text bs matched).1 with
      | none =>
          simp only [compareAux, hbm]
          exact ih bs matched h
      | some ib =>
          simp only [compareAux, hbm]
          refine ih bs (matched ++ [ib.1]) ?_
          have hspec := bestFold_some_spec sim th ca.text matched bs.enum
            (none, 0) (le_refl 0) ib.1 ib.2
            (show (bestMatchFold sim th ca.text bs matched).1 =
              some (ib.1, ib.2) by rw [hbm])
          rcases hspec with hbad | hgood
          · exact absurd hbad.1 (by simp)
          · have hnotmem : ib.1 ∉ matched := by
              have hfalse := hgood.2.1
              simp at hfalse
              exact hfalse
            simp [List.nodup_append, h, hnotmem]

theorem bestStep_zero (th : ℚ) (a : String) (matched : List ℕ)
    (st : Option (ℕ × RegulatoryClause) × ℚ) (ib : ℕ × RegulatoryClause)
    (h : st.2 = 0) : bestStep (fun _ _ => 0) th a matched st ib = st := by
  unfold bestStep
  split_ifs with h1 h2
  · rfl
  · rw [h] at h2
    exact absurd h2.1 (lt_irrefl 0)
  · rfl

theorem bestMatchFold_zero (th : ℚ) (a : String)
    (bs : List RegulatoryClause) (matched : List ℕ) :
    bestMatchFold (fun _ _ => 0) th a bs matched = (none, 0) := by
  unfold bestMatchFold
  generalize bs.enum = l
  induction l with
  | nil => rfl
  | cons ib l ih =>
      rw [List.foldl_cons, bestStep_zero th a matched (none, 0) ib rfl]
      exact ih

theorem compareAux_zero (th : ℚ) (ja jb : String) :
    ∀ (cas bs : List RegulatoryClause),
      compareAux (fun _ _ => 0) th ja jb cas bs [] =
        (cas.map (fun ca => novelDiff ca ja jb), []) := by
  intro cas
  induction cas with
  | nil => intro bs; rfl
  | cons ca cas ih =>
      intro bs
      have hbm : (bestMatchFold (fun _ _ => (0 : ℚ)) th ca.text bs []).1 =
          none := by
        rw [bestMatchFold_zero]
      simp only [compareAux, hbm, List.map_cons]
      rw [ih bs]

/-- C9: in every `compare_clauses` output record, `clause_b = None`
exactly when the difference type is NOVEL (matched pairs always carry a
clause_b); and a B-side clause whose index is never matched yields a
NOVEL record that stores that B clause in the `clause_a` field (see
`novelDiff`), so the record fields alone do not distinguish which input
list a novel clause came from. -/
theorem novel_difference_C9 (sim : String → String → ℚ) (th : ℚ)
    (cas bs : List RegulatoryClause) (ja jb : String) :
    (∀ d ∈ compareClauses sim th cas bs ja jb,
      (d.clause_b = none ↔ d.difference_type = DifferenceType.NOVEL)) ∧
    (∀ ib ∈ bs.enum,
      (compareAux sim th ja jb cas bs []).2.contains ib.1 = false →
        novelDiff ib.2 jb ja ∈ compareClauses sim th cas bs ja jb) := by
  constructor
  · intro d hd
    unfold compareClauses at hd
    rcases List.mem_append.mp hd with h | h
    · exact compareAux_c9 sim th ja jb cas bs [] d h
    · rcases List.mem_map.mp h with ⟨ib, _, heq⟩
      rw [← heq]
      exact iff_of_true rfl rfl
  · intro ib hib hcon
    unfold compareClauses
    refine List.mem_append.mpr (Or.inr ?_)
    refine List.mem_map.mpr ⟨ib, ?_, rfl⟩
    refine List.mem_filter.mpr ⟨hib, ?_⟩
    have hcon2 : ib.1 ∉ (compareAux sim th ja jb cas bs []).2 := by
      simpa using hcon
    simpa using hcon2

/-- C9 witness: with the constant-zero similarity nothing matches, and
the unmatched B clause appears as a NOVEL record holding the B clause
in `clause_a`. -/
theorem novel_difference_C9_witness :
    novelDiff { text := "beta", clause_type := ClauseType.OBLIGATION }
        "Target" "Source" ∈
      compareClauses (fun _ _ => 0) 0.7
        [{ text := "alpha", clause_type := ClauseType.OBLIGATION }]
        [{ text := "beta", clause_type := ClauseType.OBLIGATION }]
        "Source" "Target" := by
  refine (novel_difference_C9 (fun _ _ => 0) 0.7
    [{ text := "alpha", clause_type := ClauseType.OBLIGATION }]
    [{ text := "beta", clause_type := ClauseType.OBLIGATION }]
    "Source" "Target").2
    (0, { text := "beta", clause_type := ClauseType.OBLIGATION }) ?_ ?_
  · show (0, ({ text := "beta", clause_type := ClauseType.OBLIGATION } :
      RegulatoryClause)) ∈
      [(0, ({ text := "beta", clause_type := ClauseType.OBLIGATION } :
        RegulatoryClause))]
    exact List.mem_singleton_self _
  · rw [compareAux_zero]
    rfl

/-- C2 (amended): `compare_clauses` is greedy one-to-one matching in
input order without backtracking: each A clause is paired with the
maximum-similarity not-yet-matched B clause whose similarity meets the
threshold and strictly exceeds the initial best similarity 0.0; a
matched B index is never reused; and for `clauses_a = [A1, A2]` both
similar (above threshold, positively) to a single B1, A1 matches B1 and
A2 is reported NOVEL. -/
theorem greedy_matching_C2 :
    (∀ (sim : String → String → ℚ) (th : ℚ) (a : String)
        (bs : List RegulatoryClause) (matched : List ℕ) (i : ℕ)
        (b : RegulatoryClause),
      (bestMatchFold sim th a bs matched).1 = some (i, b) →
        (i, b) ∈ bs.enum ∧ matched.contains i = false ∧
        (bestMatchFold sim th a bs matched).2 = sim a b.text ∧
        th ≤ sim a b.text ∧ 0 < sim a b.text ∧
        (∀ (j : ℕ) (c : RegulatoryClause), (j, c) ∈ bs.enum →
          matched.contains j = false → th ≤ sim a c.text →
          sim a c.text ≤ sim a b.text)) ∧
    (∀ (sim : String → String → ℚ) (th : ℚ) (ja jb : String)
        (cas bs : List RegulatoryClause),
      ((compareAux sim th ja jb cas bs []).2).Nodup) ∧
    (∀ (sim : String → String → ℚ) (th : ℚ) (ja jb : String)
        (a1 a2 b1 : RegulatoryClause),
      th ≤ sim a1.text b1.text → 0 < sim a1.text b1.text →
      th ≤ sim a2.text b1.text →
      compareClauses sim th [a1, a2] [b1] ja jb =
        [analyzeDifference a1 b1 (sim a1.text b1.text),
          novelDiff a2 ja jb]) := by
  refine ⟨?_, ?_, ?_⟩
  · intro sim th a bs matched i b hsome
    rcases bestFold_some_spec sim th a matched bs.enum (none, 0) (le_refl 0)
      i b hsome with hbad | hgood
    · exact absurd hbad.1 (by simp)
    · obtain ⟨hmem, hcon, hsim, hth, hpos⟩ := hgood
      refine ⟨hmem, hcon, hsim, hth, hpos, ?_⟩
      intro j c hj hcj hthj
      have hle := bestFold_candidate_le sim th a matched bs.enum (none, 0)
        j c hj hcj hthj
      rw [hsim] at hle
      exact hle
  · intro sim th ja jb cas bs
    exact compareAux_nodup sim th ja jb cas bs [] List.nodup_nil
  · intro sim th ja jb a1 a2 b1 h1 h2 h3
    have he : ([b1] : List RegulatoryClause).enum = [(0, b1)] := rfl
    have hb1 : bestMatchFold sim th a1.text [b1] [] =
        (some (0, b1), sim a1.text b1.text) := by
      unfold bestMatchFold
      rw [he, List.foldl_cons, List.foldl_nil]
      unfold bestStep
      rw [if_neg (by simp),
        if_pos (show (none (α := ℕ × RegulatoryClause), (0 : ℚ)).2 <
            sim a1.text (0, b1).2.text ∧ th ≤ sim a1.text (0, b1).2.text
          from ⟨h2, h1⟩)]
    have hb2 : bestMatchFold sim th a2.text [b1] [0] = (none, 0) := by
      unfold bestMatchFold
      rw [he, List.foldl_cons, List.foldl_nil]
      unfold bestStep
      rw [if_pos (show ([0] : List ℕ).contains (0, b1).1 = true from rfl)]
    have hbm1 : (bestMatchFold sim th a1.text [b1] []).1 = some (0, b1) := by
      rw [hb1]
    have hca : compareAux sim th ja jb [a1, a2] [b1] [] =
        ([analyzeDifference a1 b1 (sim a1.text b1.text),
          novelDiff a2 ja jb], [0]) := by
      simp only [compareAux, hbm1, hb1, List.nil_append]
      simp only [hb2]
    unfold compareClauses
    rw [hca]
    rfl

/-- C2 witness: constant similarity 1 meets the default threshold 0.7
for both A clauses against the single B clause; A1 matches B1 and A2 is
NOVEL. -/
theorem greedy_matching_C2_witness :
    ((0.7 : ℚ) ≤ 1 ∧ (0 : ℚ) < 1) ∧
    compareClauses (fun _ _ => 1) 0.7
        [{ text := "A1", clause_type := ClauseType.OBLIGATION },
          { text := "A2", clause_type := ClauseType.OBLIGATION }]
        [{ text := "B1", clause_type := ClauseType.OBLIGATION }]
        "Source" "Target" =
      [analyzeDifference { text := "A1", clause_type := ClauseType.OBLIGATION }
          { text := "B1", clause_type := ClauseType.OBLIGATION } 1,
        novelDiff { text := "A2", clause_type := ClauseType.OBLIGATION }
          "Source" "Target"] :=
  ⟨⟨by norm_num, by norm_num⟩,
    greedy_matching_C2.2.2 (fun _ _ => 1) 0.7 "Source" "Target"
      { text := "A1", clause_type := ClauseType.OBLIGATION }
      { text := "A2", clause_type := ClauseType.OBLIGATION }
      { text := "B1", clause_type := ClauseType.OBLIGATION }
      (by norm_num) (by norm_num) (by norm_num)⟩

/-- C2 counterexample: with threshold 0 and the constant-zero
similarity, B1 meets the threshold (`0 ≥ 0`) yet A1 is not paired with
it — both sides are reported NOVEL — because the scan additionally
requires the similarity to strictly exceed the initial best similarity
`0.0`.  The claim, which requires pairing with any threshold-meeting
maximum, is false at this input. -/
theorem greedy_matching_C2_counterexample :
    ((0 : ℚ) ≤ 0) ∧
    compareClauses (fun _ _ => 0) 0
        [{ text := "A1", clause_type := ClauseType.OBLIGATION }]
        [{ text := "B1", clause_type := ClauseType.OBLIGATION }]
        "Source" "Target" =
      [novelDiff { text := "A1", clause_type := ClauseType.OBLIGATION }
          "Source" "Target",
        novelDiff { text := "B1", clause_type := ClauseType.OBLIGATION }
          "Target" "Source"] := by
  refine ⟨le_refl 0, ?_⟩
  unfold compareClauses
  rw [compareAux_zero]
  rfl

theorem defScan_eq (minLen maxLen : ℕ) (xref : String → List String)
    (srcDoc jur : Option String) :
    ∀ (blocks : List (List DefMatch × ℚ)) (st : List Definition × List String),
      blocks.foldl
        (fun st blk =>
          blk.1.foldl (processDefMatch minLen maxLen xref srcDoc jur blk.2) st)
        st =
      (flattenScan blocks).foldl
        (fun st mc => processDefMatch minLen maxLen xref srcDoc jur mc.2 st mc.1)
        st := by
  intro blocks
  induction blocks with
  | nil => intro st; rfl
  | cons blk rest ih =>
      intro st
      rw [List.foldl_cons, ih,
        show flattenScan (blk :: rest) =
          blk.1.map (fun m => (m, blk.2)) ++ flattenScan rest from rfl,
        List.foldl_append]
      congr 1
      rw [List.foldl_map]

theorem processDefMatch_invariant (minLen maxLen : ℕ)
    (xref : String → List String) (srcDoc jur : Option String) (conf : ℚ)
    (st : List Definition × List String) (m : DefMatch)
    (h1 : ∀ d ∈ st.1, st.2.contains d.term.toLower = true)
    (h2 : List.Pairwise
      (fun d e : Definition => d.term.toLower ≠ e.term.toLower) st.1) :
    (∀ d ∈ (processDefMatch minLen maxLen xref srcDoc jur conf st m).1,
      ((processDefMatch minLen maxLen xref srcDoc jur conf st m).2).contains
        d.term.toLower = true) ∧
    List.Pairwise (fun d e : Definition => d.term.toLower ≠ e.term.toLower)
      (processDefMatch minLen maxLen xref srcDoc jur conf st m).1 := by
  unfold processDefMatch
  dsimp only
  split_ifs with hseen hvalid
  · exact ⟨h1, h2⟩
  · exact ⟨h1, h2⟩
  · constructor
    · intro d hd
      rcases List.mem_append.mp hd with hold | hnew
      · have hc := h1 d hold
        simp only [List.contains_eq_any_beq] at hc ⊢
        simp only [List.any_append]
        simp [hc]
      · rcases List.mem_singleton.mp hnew with rfl
        simp
    · refine List.pairwise_append.mpr ⟨h2, List.pairwise_singleton _ _, ?_⟩
      intro d hd e he
      rcases List.mem_singleton.mp he with rfl
      intro heq
      have hc := h1 d hd
      rw [heq] at hc
      exact hseen hc

theorem defFold_unique (minLen maxLen : ℕ) (xref : String → List String)
    (srcDoc jur : Option String) :
    ∀ (l : List (DefMatch × ℚ)) (st : List Definition × List String),
      (∀ d ∈ st.1, st.2.contains d.term.toLower = true) →
      List.Pairwise (fun d e : Definition => d.term.toLower ≠ e.term.toLower)
        st.1 →
      List.Pairwise (fun d e : Definition => d.term.toLower ≠ e.term.toLower)
        (l.foldl
          (fun st mc => processDefMatch minLen maxLen xref srcDoc jur mc.2 st mc.1)
          st).1 := by
  intro l
  induction l with
  | nil => intro st _ h2; exact h2
  | cons mc l ih =>
      intro st h1 h2
      rw [List.foldl_cons]
      have hstep := processDefMatch_invariant minLen maxLen xref srcDoc jur
        mc.2 st mc.1 h1 h2
      exact ih _ hstep.1 hstep.2

theorem mergeSort_sorted_by_position (l : List Definition) :
    List.Pairwise (fun d e : Definition => d.position ≤ e.position)
      (l.mergeSort (fun a b => a.position ≤ b.position)) := by
  have h := @List.sorted_mergeSort Definition
    (fun a b : Definition => decide (a.position ≤ b.position))
    (fun a b c hab hbc => by
      simp only [decide_eq_true_eq] at hab hbc ⊢
      exact le_trans hab hbc)
    (fun a b => by
      rcases Nat.le_total a.position b.position with h | h <;> simp [h]) l
  exact h.imp (fun hle => by simpa using hle)

/-- C6: `DefinitionExtractor.extract` equals the spec's description — a
single first-match-wins pass over the flattened scan order (pattern
list order, then match order; an already-recorded lower-cased term is
skipped regardless of the later pattern's confidence) followed by the
position sort; the output has at most one definition per lower-cased
term and is sorted in non-decreasing position order. -/
theorem definition_extraction_C6 (minLen maxLen : ℕ)
    (xref : String → List String) (srcDoc jur : Option String)
    (blocks : List (List DefMatch × ℚ)) :
    extractDefinitions minLen maxLen xref srcDoc jur blocks =
      specExtractDefinitions minLen maxLen xref srcDoc jur blocks ∧
    List.Pairwise (fun d e : Definition => d.term.toLower ≠ e.term.toLower)
      (extractDefinitions minLen maxLen xref srcDoc jur blocks) ∧
    List.Pairwise (fun d e : Definition => d.position ≤ e.position)
      (extractDefinitions minLen maxLen xref srcDoc jur blocks) := by
  have heq : extractDefinitions minLen maxLen xref srcDoc jur blocks =
      specExtractDefinitions minLen maxLen xref srcDoc jur blocks := by
    unfold extractDefinitions specExtractDefinitions
    rw [defScan_eq]
  refine ⟨heq, ?_, ?_⟩
  · rw [heq]
    unfold specExtractDefinitions
    have hpw := defFold_unique minLen maxLen xref srcDoc jur
      (flattenScan blocks) ([], [])
      (fun d hd => absurd hd (List.not_mem_nil _)) List.Pairwise.nil
    have hperm := List.mergeSort_perm
      ((flattenScan blocks).foldl
        (fun st mc => processDefMatch minLen maxLen xref srcDoc jur mc.2 st mc.1)
        ([], [])).1
      (fun a b : Definition => a.position ≤ b.position)
    exact (hperm.pairwise_iff (fun h => h.symm)).mpr hpw
  · unfold extractDefinitions
    exact mergeSort_sorted_by_position _

theorem mrun_nonws : ∀ (p : RPat) (t : List Char) (i e : ℕ),
    patConsumesNonWs p = true → e ∈ mrun t p i →
    ∃ c ∈ t, c.isWhitespace = false := by
  intro p
  induction p with
  | lit s =>
      intro t i e hp he
      unfold mrun at he
      split_ifs at he with hpre
      · have hs : s <+: t.drop i := by
          rwa [← List.isPrefixOf_iff_prefix]
        unfold patConsumesNonWs at hp
        rcases List.any_eq_true.mp hp with ⟨c, hc, hcw⟩
        refine ⟨c, ?_, by simpa using hcw⟩
        exact List.drop_subset i t (hs.sublist.subset hc)
      · exact absurd he (List.not_mem_nil _)
  | cls1 q =>
      intro t i e hp
      exact absurd hp (by simp [patConsumesNonWs])
  | opt p ihp =>
      intro t i e hp
      exact absurd hp (by simp [patConsumesNonWs])
  | alt2 p q ihp ihq =>
      intro t i e hp he
      unfold patConsumesNonWs at hp
      unfold mrun at he
      rcases List.mem_append.mp he with h | h
      · exact ihp t i e (Bool.and_eq_true_iff.mp hp).1 h
      · exact ihq t i e (Bool.and_eq_true_iff.mp hp).2 h
  | seq2 p q ihp ihq =>
      intro t i e hp he
      unfold patConsumesNonWs at hp
      unfold mrun at he
      rcases List.mem_flatMap.mp he with ⟨m, hm, hme⟩
      rcases Bool.or_eq_true_iff.mp hp with h | h
      · exact ihp t i m h hm
      · exact ihq t m e h hme
  | wordB =>
      intro t i e hp
      exact absurd hp (by simp [patConsumesNonWs])

theorem finditerAux_mem (t : List Char) (p : RPat) :
    ∀ (fuel i : ℕ) (se : ℕ × ℕ), se ∈ finditerAux t p fuel i →
      se.2 ∈ mrun t p se.1 := by
  intro fuel
  induction fuel with
  | zero =>
      intro i se h
      exact absurd h (List.not_mem_nil _)
  | succ fuel ih =>
      intro i se h
      unfold finditerAux at h
      split_ifs at h with hlen
      · exact absurd h (List.not_mem_nil _)
      · cases hh : (mrun t p i).head? with
        | none =>
            rw [hh] at h
            exact ih (i + 1) se h
        | some e =>
            rw [hh] at h
            have h2 : se ∈ (if i < e then (i, e) :: finditerAux t p fuel e
                else finditerAux t p fuel (i + 1)) := h
            clear h
            split_ifs at h2 with hlt
            · rcases List.mem_cons.mp h2 with heq | htail
              · rw [heq]
                show e ∈ mrun t p i
                cases hmr : mrun t p i with
                | nil => rw [hmr] at hh; exact absurd hh (by simp)
                | cons a l =>
                    rw [hmr] at hh
                    simp at hh
                    simp [hh]
              · exact ih e se htail
            · exact ih (i + 1) se h2

theorem toLower_ws_fixed (c : Char) (h : c.isWhitespace = true) :
    c.toLower = c := by
  have hcases : c = ' ' ∨ c = '\t' ∨ c = '\r' ∨ c = '\n' := by
    simp only [Char.isWhitespace, Bool.or_eq_true, decide_eq_true_eq] at h
    tauto
  rcases hcases with h1 | h1 | h1 | h1 <;> rw [h1] <;> decide

theorem nonws_of_lower (t : List Char)
    (h : ∃ c ∈ lowerChars t, c.isWhitespace = false) :
    ∃ c ∈ t, c.isWhitespace = false := by
  rcases h with ⟨c, hc, hw⟩
  unfold lowerChars at hc
  rcases List.mem_map.mp hc with ⟨c0, hc0, heq⟩
  refine ⟨c0, hc0, ?_⟩
  by_contra hws
  have hws2 : c0.isWhitespace = true := by
    cases h2 : c0.isWhitespace
    · exact absurd h2 hws
    · rfl
  rw [← heq, toLower_ws_fixed c0 hws2] at hw
  rw [hws2] at hw
  exact Bool.noConfusion hw

theorem wordCount_pos (t : List Char)
    (h : ∃ c ∈ t, c.isWhitespace = false) : 0 < wordCount t := by
  unfold wordCount
  induction t with
  | nil =>
      rcases h with ⟨c, hc, _⟩
      exact absurd hc (List.not_mem_nil _)
  | cons c r ih =>
      rcases h with ⟨d, hd, hw⟩
      unfold wordCountAux
      split_ifs with hws hcontr
      · rcases List.mem_cons.mp hd with heq | htail
        · rw [heq] at hw
          rw [hws] at hw
          exact Bool.noConfusion hw
        · exact ih ⟨d, htail, hw⟩
      · exact hcontr.elim
      · exact Nat.lt_of_lt_of_le Nat.zero_lt_one (Nat.le_add_right _ _)

theorem quotedScanAux_quote :
    ∀ (fuel pos : ℕ) (s : List Char) (x : ℕ × List Char),
      x ∈ quotedScanAux fuel pos s → ∃ c ∈ s, c = '"' := by
  intro fuel
  induction fuel with
  | zero =>
      intro pos s x h
      exact absurd h (List.not_mem_nil _)
  | succ fuel ih =>
      intro pos s x h
      cases s with
      | nil => exact absurd h (List.not_mem_nil _)
      | cons c rest =>
          by_cases hc : c = '"'
          · exact ⟨c, List.mem_cons_self _ _, hc⟩
          · unfold quotedScanAux at h
            rw [if_neg hc] at h
            rcases ih (pos + 1) rest x h with ⟨d, hd, hq⟩
            exact ⟨d, List.mem_cons_of_mem _ hd, hq⟩

theorem vague_patterns_consume : VAGUE_STANDARDS.all
    (fun kds => patConsumesNonWs (bword1 kds.1.toList)) = true := by decide

theorem scope_patterns_consume : SCOPE_UNCLEAR_PATTERNS.all
    (fun pds => patConsumesNonWs pds.1) = true := by decide

theorem timing_patterns_consume : TIMING_UNCLEAR_PATTERNS.all
    (fun pds => patConsumesNonWs pds.1) = true := by decide

theorem threshold_patterns_consume : THRESHOLD_UNCLEAR_PATTERNS.all
    (fun pds => patConsumesNonWs pds.1) = true := by decide

theorem vagueInstances_nonws (t : List Char) :
    ∀ inst ∈ vagueInstances t, ∃ c ∈ t, c.isWhitespace = false := by
  intro inst hmem
  unfold vagueInstances at hmem
  rcases List.mem_flatMap.mp hmem with ⟨kds, hkds, hmap⟩
  rcases List.mem_map.mp hmap with ⟨se, hse, _⟩
  unfold finditerP at hse
  have hm := finditerAux_mem (lowerChars t) (bword1 kds.1.toList) _ 0 se hse
  have hcon : patConsumesNonWs (bword1 kds.1.toList) = true := by
    have hall := List.all_eq_true.mp vague_patterns_consume kds hkds
    simpa using hall
  exact nonws_of_lower t
    (mrun_nonws (bword1 kds.1.toList) (lowerChars t) se.1 se.2 hcon hm)

theorem patternInstances_nonws (t : List Char)
    (pats : List (RPat × String × ℚ)) (ty : AmbiguityType)
    (hall : pats.all (fun pds => patConsumesNonWs pds.1) = true) :
    ∀ inst ∈ patternInstances t pats ty,
      ∃ c ∈ t, c.isWhitespace = false := by
  intro inst hmem
  unfold patternInstances at hmem
  rcases List.mem_flatMap.mp hmem with ⟨pds, hpds, hmap⟩
  rcases List.mem_map.mp hmap with ⟨se, hse, _⟩
  unfold finditerP at hse
  have hm := finditerAux_mem (lowerChars t) pds.1 _ 0 se hse
  have hcon : patConsumesNonWs pds.1 = true := by
    have h2 := List.all_eq_true.mp hall pds hpds
    simpa using h2
  exact nonws_of_lower t (mrun_nonws pds.1 (lowerChars t) se.1 se.2 hcon hm)

theorem undefinedTermInstances_nonws (dts : List String) (t : List Char) :
    ∀ inst ∈ undefinedTermInstances dts t,
      ∃ c ∈ t, c.isWhitespace = false := by
  intro inst hmem
  unfold undefinedTermInstances at hmem
  rcases List.mem_filterMap.mp hmem with ⟨pm, hpm, _⟩
  unfold quotedMatches at hpm
  rcases quotedScanAux_quote (t.length + 1) 0 t pm hpm with ⟨c, hc, hq⟩
  refine ⟨c, hc, ?_⟩
  rw [hq]
  decide

theorem allInstances_nonws (cfg : AmbiguityDetectorConfig) (t : List Char) :
    ∀ inst ∈ allAmbiguityInstances cfg t,
      ∃ c ∈ t, c.isWhitespace = false := by
  intro inst hmem
  unfold allAmbiguityInstances at hmem
  rcases List.mem_append.mp hmem with h | h
  · rcases List.mem_append.mp h with h | h
    · rcases List.mem_append.mp h with h | h
      · rcases List.mem_append.mp h with h | h
        · exact vagueInstances_nonws t inst h
        · exact patternInstances_nonws t SCOPE_UNCLEAR_PATTERNS
            AmbiguityType.SCOPE_UNCLEAR scope_patterns_consume inst h
      · exact patternInstances_nonws t TIMING_UNCLEAR_PATTERNS
          AmbiguityType.TIMING_UNCLEAR timing_patterns_consume inst h
    · exact patternInstances_nonws t THRESHOLD_UNCLEAR_PATTERNS
        AmbiguityType.THRESHOLD_UNCLEAR threshold_patterns_consume inst h
  · exact undefinedTermInstances_nonws cfg.defined_terms t inst h

theorem filtered_nonempty_wordCount (cfg : AmbiguityDetectorConfig)
    (t : List Char) (h : filteredInstances cfg t ≠ []) : 0 < wordCount t := by
  rcases List.exists_mem_of_ne_nil _ h with ⟨inst, hmem⟩
  unfold filteredInstances at hmem
  have hall := (List.mem_filter.mp hmem).1
  exact wordCount_pos t (allInstances_nonws cfg t inst hall)

theorem sortedInstances_eq_nil_iff (cfg : AmbiguityDetectorConfig)
    (t : List Char) :
    sortedInstances cfg t = [] ↔ filteredInstances cfg t = [] := by
  unfold sortedInstances
  constructor
  · intro h
    have hp := List.mergeSort_perm (filteredInstances cfg t)
      (fun a b : AmbiguityInstance => a.position ≤ b.position)
    have hl := hp.length_eq
    rw [h] at hl
    exact List.length_eq_zero.mp hl.symm
  · intro h
    rw [h]
    simp

/-- C4: the ambiguity score is always in `[0, 1]`; it is exactly the
guarded density formula `min(1, count / (word_count / 100))` with `0`
for an empty surviving-instance list; and whenever the surviving list is
nonempty the whitespace-split word count is positive, so the division
is never by zero. -/
theorem ambiguity_score_C4 (cfg : AmbiguityDetectorConfig)
    (text docId : String) (jur : Option String) :
    0 ≤ (detect cfg text docId jur).ambiguity_score ∧
    (detect cfg text docId jur).ambiguity_score ≤ 1 ∧
    (detect cfg text docId jur).ambiguity_score =
      (if sortedInstances cfg text.toList = [] then 0
        else min 1 (((sortedInstances cfg text.toList).length : ℚ) /
          ((wordCount text.toList : ℚ) / 100))) ∧
    (sortedInstances cfg text.toList = [] ∨ 0 < wordCount text.toList) := by
  have hscore : (detect cfg text docId jur).ambiguity_score =
      ambiguityScore (sortedInstances cfg text.toList) text.toList := rfl
  refine ⟨?_, ?_, by rw [hscore]; rfl, ?_⟩
  · rw [hscore]
    unfold ambiguityScore
    split_ifs
    · exact le_refl 0
    · refine le_min (by norm_num) (div_nonneg (by positivity) ?_)
      positivity
  · rw [hscore]
    unfold ambiguityScore
    split_ifs
    · norm_num
    · exact min_le_left _ _
  · by_cases hnil : sortedInstances cfg text.toList = []
    · exact Or.inl hnil
    · refine Or.inr (filtered_nonempty_wordCount cfg text.toList ?_)
      intro hfil
      exact hnil ((sortedInstances_eq_nil_iff cfg text.toList).mpr hfil)

/-- C8 (amended): when at least one instance survives filtering, the
recommendation list is the legal-review disclaimer followed exactly by
the independently-guarded guidance entries (vague-standard count > 3,
timing-unclear count > 2, threshold-unclear count > 2, high-severity
count > 5); when no instance survives (e.g. empty text) it is the
single no-ambiguity message instead. -/
theorem recommendations_C8 (cfg : AmbiguityDetectorConfig)
    (text docId : String) (jur : Option String) :
    (detect cfg text docId jur).recommendations =
      (if sortedInstances cfg text.toList = [] then [noAmbiguityMsg]
        else
          legalReviewMsg ::
            ((if 3 < instancesByType (sortedInstances cfg text.toList)
                  AmbiguityType.VAGUE_STANDARD then [vagueStandardsMsg]
              else []) ++
              ((if 2 < instancesByType (sortedInstances cfg text.toList)
                    AmbiguityType.TIMING_UNCLEAR then [timingUnclearMsg]
                else []) ++
                ((if 2 < instancesByType (sortedInstances cfg text.toList)
                      AmbiguityType.THRESHOLD_UNCLEAR then [thresholdUnclearMsg]
                  else []) ++
                  (if 5 < highSeverityCount (sortedInstances cfg text.toList)
                    then [highPriorityMsg
                      (highSeverityCount (sortedInstances cfg text.toList))]
                  else []))))) := by
  have hr : (detect cfg text docId jur).recommendations =
      generateRecommendations (sortedInstances cfg text.toList)
        (instancesByType (sortedInstances cfg text.toList)) := rfl
  rw [hr]
  unfold generateRecommendations highSeverityCount
  by_cases hnil : sortedInstances cfg text.toList = []
  · rw [if_pos hnil, if_pos hnil]
  · rw [if_neg hnil, if_neg hnil]
    dsimp only
    split_ifs <;> simp

/-- C8 counterexample: on empty text nothing is detected and the
recommendation list is the single no-ambiguity message, not the
legal-review disclaimer, refuting the claim for every input. -/
theorem recommendations_C8_counterexample :
    (detect { defined_terms := [], severity_threshold := 0 } "" "unknown"
      none).recommendations = [noAmbiguityMsg] ∧
    noAmbiguityMsg ≠ legalReviewMsg := by
  constructor
  · have hfil : filteredInstances
        { defined_terms := [], severity_threshold := 0 } ("".toList) = [] := by
      rfl
    have hsort : sortedInstances
        { defined_terms := [], severity_threshold := 0 } ("".toList) = [] := by
      unfold sortedInstances
      rw [hfil]
      simp
    have hr : (detect { defined_terms := [], severity_threshold := 0 } ""
        "unknown" none).recommendations =
        generateRecommendations
          (sortedInstances { defined_terms := [], severity_threshold := 0 }
            ("".toList))
          (instancesByType
            (sortedInstances { defined_terms := [], severity_threshold := 0 }
              ("".toList))) := rfl
    rw [hr, hsort]
    rfl
  · decide

/-- The vague-standard scanner really fires: the single word "promptly"
matched by the lexicon yields exactly one instance (non-vacuity check
for the detector embedding). -/
theorem vagueInstances_sample :
    (vagueInstances ("promptly".toList)).length = 1 := by decide
